import Mathlib

/-!
Shallow embedding of Publ's image rendition core (`src/publ/image.py`) and
verification of the specification's claims about it.

Conventions of the embedding:
* Python floats are modelled as exact rationals (`ℚ`); the spec states that the
  pipeline's intermediate arithmetic is real-valued.
* Python integers are `ℤ` (sizes, crop boxes) and `ℕ` (quality, colour
  components); strings are Lean `String`s.
* Optional keyword arguments are `Option` fields; Python truthiness of a
  numeric option (`if scale:`) is "present and nonzero", of a string option
  "present and nonempty".
* Division is `ℚ`'s total division.  On every input considered by a theorem
  below, the divisors encountered by the code are nonzero (this is itself one
  of the verified claims), so the embedding agrees with Python there.
* Fallible dispatch (`raise ValueError`) is an `Except` value.
-/

namespace Publ

/-! ### Python numeric helpers -/

/-- Python `int()` on a float: truncation toward zero. -/
def pyint (q : ℚ) : ℤ := if 0 ≤ q then ⌊q⌋ else ⌈q⌉

/-- `round` from image.py lines 19-21: `int(num + 0.5)`. -/
def round (num : ℚ) : ℤ := pyint (num + 1/2)

/-! ### Python string helpers -/

/-- Decimal numeral of a natural number, as produced by Python `str`. -/
def strNat (n : ℕ) : String :=
  if n = 0 then "0" else ⟨((Nat.digits 10 n).map Nat.digitChar).reverse⟩

/-- Decimal numeral of an integer, as produced by Python `str`. -/
def strInt (n : ℤ) : String :=
  if n < 0 then "-" ++ strNat n.natAbs else strNat n.natAbs

/-- Python `sep.join(parts)`. -/
def pyjoin (sep : String) : List String → String
  | [] => ""
  | [a] => a
  | a :: b :: rest => a ++ sep ++ pyjoin sep (b :: rest)

/-- Modelled from the spec: `os.path.basename` (the `os` module is an external
collaborator, not part of src): the final path component. -/
def pybasename (p : String) : String :=
  ⟨p.data.foldl (fun acc c => if c = '/' then [] else acc ++ [c]) []⟩

/-- Modelled from the spec: `os.path.splitext` (external): split a filename
into stem and extension at the last dot. -/
def splitext (s : String) : String × String :=
  match s.data.reverse.span (· ≠ '.') with
  | (_, []) => (s, "")
  | (extRev, _ :: stemRev) => (⟨stemRev.reverse⟩, ⟨'.' :: extRev.reverse⟩)

/-- One step of separator-run collapsing used by `make_slug`. -/
def collapseDash (l : List Char) : List Char :=
  l.foldr (fun c acc => if c = '-' ∧ acc.head? = some '-' then acc else c :: acc) []

/-- Modelled from the spec: `utils.make_slug` (not in src) — "source filename
stem, normalized to a URL/filesystem-safe token (lowercase, non-alphanumeric
runs collapsed to a single separator)". -/
def make_slug (s : String) : String :=
  ⟨collapseDash (s.data.map (fun c => if c.isAlphanum then c.toLower else '-'))⟩

/-- Python `s[-n:]`. -/
def takeLast (n : ℕ) (s : String) : String := ⟨s.data.drop (s.data.length - n)⟩

/-! ### Data model -/

/-- The index record behind an `Image` (width/height/checksum/file_path of the
source file, provided by the metadata collaborator). -/
structure ImageRecord where
  width : ℤ
  height : ℤ
  checksum : String := ""
  file_path : String := ""

/-- A background colour value: either a tuple/list of components or a scalar. -/
inductive BgColor where
  | tup (components : List ℕ)
  | scalar (value : String)
deriving DecidableEq

/-- The keyword arguments accepted by `Image.get_rendition` (image.py lines
41-55).  Absent keys are `none`. -/
structure RenditionSpec where
  scale : Option ℚ := none
  scale_min_width : Option ℚ := none
  scale_min_height : Option ℚ := none
  width : Option ℚ := none
  height : Option ℚ := none
  max_width : Option ℚ := none
  max_height : Option ℚ := none
  resize : Option String := none
  fill_crop_x : Option ℚ := none
  fill_crop_y : Option ℚ := none
  format : Option String := none
  background : Option BgColor := none
  quality : Option ℕ := none

/-- Python-level failure of the geometry resolver (`raise ValueError`,
image.py line 129). -/
inductive PyError where
  | valueError (msg : String)
deriving DecidableEq

/-! ### Geometry pipeline steps

Each step mirrors a contiguous chunk of image.py.  `(wh.1, wh.2)` is the
working `(width, height)` pair. -/

/-- Lines 140-143 / 195-198 / 255-258: `if scale: width /= scale; height /= scale`. -/
def scale_pass (scale? : Option ℚ) (wh : ℚ × ℚ) : ℚ × ℚ :=
  match scale? with
  | some scale => if scale ≠ 0 then (wh.1 / scale, wh.2 / scale) else wh
  | none => wh

/-- Lines 145-148: fit-mode `scale_min_width` (raises width, rescales height
proportionally using the old width). -/
def fit_min_width (mw? : Option ℚ) (wh : ℚ × ℚ) : ℚ × ℚ :=
  match mw? with
  | some mw => if mw ≠ 0 ∧ wh.1 < mw then (mw, wh.2 * mw / wh.1) else wh
  | none => wh

/-- Lines 150-153: fit-mode `scale_min_height`. -/
def fit_min_height (mh? : Option ℚ) (wh : ℚ × ℚ) : ℚ × ℚ :=
  match mh? with
  | some mh => if mh ≠ 0 ∧ wh.2 < mh then (wh.1 * mh / wh.2, mh) else wh
  | none => wh

/-- Lines 157-159 / 168-170: fit-mode proportional clamp of the width against
a target. -/
def fit_clamp_width (t? : Option ℚ) (wh : ℚ × ℚ) : ℚ × ℚ :=
  match t? with
  | some t => if t ≠ 0 ∧ wh.1 > t then (t, wh.2 * t / wh.1) else wh
  | none => wh

/-- Lines 161-164 / 172-175: fit-mode proportional clamp of the height against
a target. -/
def fit_clamp_height (t? : Option ℚ) (wh : ℚ × ℚ) : ℚ × ℚ :=
  match t? with
  | some t => if t ≠ 0 ∧ wh.2 > t then (wh.1 * t / wh.2, t) else wh
  | none => wh

/-- Lines 200-202 / 260-262: independent-axis `scale_min_width`. -/
def indep_min_width (mw? : Option ℚ) (wh : ℚ × ℚ) : ℚ × ℚ :=
  match mw? with
  | some mw => if mw ≠ 0 ∧ wh.1 < mw then (mw, wh.2) else wh
  | none => wh

/-- Lines 204-206 / 264-266: independent-axis `scale_min_height`. -/
def indep_min_height (mh? : Option ℚ) (wh : ℚ × ℚ) : ℚ × ℚ :=
  match mh? with
  | some mh => if mh ≠ 0 ∧ wh.2 < mh then (wh.1, mh) else wh
  | none => wh

/-- Lines 210-211 / 219-220 (and the stretch copies): independent-axis clamp
of the width against a target. -/
def indep_clamp_width (t? : Option ℚ) (wh : ℚ × ℚ) : ℚ × ℚ :=
  match t? with
  | some t => if t ≠ 0 ∧ wh.1 > t then (t, wh.2) else wh
  | none => wh

/-- Lines 213-215 / 222-224 (and the stretch copies): independent-axis clamp
of the height against a target. -/
def indep_clamp_height (t? : Option ℚ) (wh : ℚ × ℚ) : ℚ × ℚ :=
  match t? with
  | some t => if t ≠ 0 ∧ wh.2 > t then (wh.1, t) else wh
  | none => wh

/-- Lines 137-178: the real-valued part of `get_rendition_fit_size`, up to and
including the `output_scale` multiplication.  Note that the clamp at lines
172-175 re-reads `spec.get('height')` — not `max_height` — exactly as the
source does. -/
def fit_size_pass (spec : RenditionSpec) (wh : ℚ × ℚ) (output_scale : ℚ) : ℚ × ℚ :=
  let wh := scale_pass spec.scale wh
  let wh := fit_min_width spec.scale_min_width wh
  let wh := fit_min_height spec.scale_min_height wh
  let wh := fit_clamp_width spec.width wh
  let wh := fit_clamp_height spec.height wh
  let wh := fit_clamp_width spec.max_width wh
  let wh := fit_clamp_height spec.height wh
  (wh.1 * output_scale, wh.2 * output_scale)

/-- Lines 192-227 and its verbatim copy at lines 252-287: the shared
independent-axis pipeline of `fill` and `stretch`, up to and including the
`output_scale` multiplication.  The clamp at lines 222-224 / 282-284 re-reads
`spec.get('height')` — not `max_height` — exactly as the source does. -/
def indep_size_pass (spec : RenditionSpec) (wh : ℚ × ℚ) (output_scale : ℚ) : ℚ × ℚ :=
  let wh := scale_pass spec.scale wh
  let wh := indep_min_width spec.scale_min_width wh
  let wh := indep_min_height spec.scale_min_height wh
  let wh := indep_clamp_width spec.width wh
  let wh := indep_clamp_height spec.height wh
  let wh := indep_clamp_width spec.max_width wh
  let wh := indep_clamp_height spec.height wh
  (wh.1 * output_scale, wh.2 * output_scale)

/-- Lines 231-233: fill-mode downscale back to the base width, keeping the
output aspect. -/
def fill_clamp_base_w (iw : ℚ) (wh : ℚ × ℚ) : ℚ × ℚ :=
  if wh.1 > iw then (iw, wh.2 * iw / wh.1) else wh

/-- Lines 235-237: fill-mode downscale back to the base height. -/
def fill_clamp_base_h (ih : ℚ) (wh : ℚ × ℚ) : ℚ × ℚ :=
  if wh.2 > ih then (wh.1 * ih / wh.2, ih) else wh

/-- `Image.get_rendition_fit_size` (image.py lines 131-184). -/
def get_rendition_fit_size (r : ImageRecord) (spec : RenditionSpec)
    (output_scale : ℚ) : (ℤ × ℤ) × Option (ℤ × ℤ × ℤ × ℤ) :=
  let wh := fit_size_pass spec ((r.width : ℚ), (r.height : ℚ)) output_scale
  ((min (round wh.1) r.width, min (round wh.2) r.height), none)

/-- Lines 189-237: fill's working `(width, height)` after the shared pipeline
and the two downscale-to-base steps. -/
def fill_final (r : ImageRecord) (spec : RenditionSpec) (output_scale : ℚ) : ℚ × ℚ :=
  fill_clamp_base_h (r.height : ℚ)
    (fill_clamp_base_w (r.width : ℚ)
      (indep_size_pass spec ((r.width : ℚ), (r.height : ℚ)) output_scale))

/-- Line 240: `box_w = min(iw, round(width * ih / height))`. -/
def fill_box_w (r : ImageRecord) (spec : RenditionSpec) (output_scale : ℚ) : ℤ :=
  min r.width
    (round ((fill_final r spec output_scale).1 * (r.height : ℚ) /
      (fill_final r spec output_scale).2))

/-- Line 241: `box_h = min(ih, round(height * iw / width))`. -/
def fill_box_h (r : ImageRecord) (spec : RenditionSpec) (output_scale : ℚ) : ℤ :=
  min r.height
    (round ((fill_final r spec output_scale).2 * (r.width : ℚ) /
      (fill_final r spec output_scale).1))

/-- Line 244: `box_x = round((iw - box_w) * spec.get('fill_crop_x', 0.5))`. -/
def fill_box_x (r : ImageRecord) (spec : RenditionSpec) (output_scale : ℚ) : ℤ :=
  round (((r.width - fill_box_w r spec output_scale : ℤ) : ℚ) *
    (spec.fill_crop_x.getD (1/2)))

/-- Line 245: `box_y = round((ih - box_h) * spec.get('fill_crop_y', 0.5))`. -/
def fill_box_y (r : ImageRecord) (spec : RenditionSpec) (output_scale : ℚ) : ℤ :=
  round (((r.height - fill_box_h r spec output_scale : ℤ) : ℚ) *
    (spec.fill_crop_y.getD (1/2)))

/-- `Image.get_rendition_fill_size` (image.py lines 186-247). -/
def get_rendition_fill_size (r : ImageRecord) (spec : RenditionSpec)
    (output_scale : ℚ) : (ℤ × ℤ) × Option (ℤ × ℤ × ℤ × ℤ) :=
  ((round (fill_final r spec output_scale).1, round (fill_final r spec output_scale).2),
    some (fill_box_x r spec output_scale, fill_box_y r spec output_scale,
      fill_box_x r spec output_scale + fill_box_w r spec output_scale,
      fill_box_y r spec output_scale + fill_box_h r spec output_scale))

/-- `Image.get_rendition_stretch_size` (image.py lines 249-289). -/
def get_rendition_stretch_size (r : ImageRecord) (spec : RenditionSpec)
    (output_scale : ℚ) : (ℤ × ℤ) × Option (ℤ × ℤ × ℤ × ℤ) :=
  let wh := indep_size_pass spec ((r.width : ℚ), (r.height : ℚ)) output_scale
  ((round wh.1, round wh.2), none)

/-- `Image.get_rendition_size` (image.py lines 117-129): dispatch on
`spec.get('resize', 'fit')`. -/
def get_rendition_size (r : ImageRecord) (spec : RenditionSpec)
    (output_scale : ℚ) : Except PyError ((ℤ × ℤ) × Option (ℤ × ℤ × ℤ × ℤ)) :=
  let mode := spec.resize.getD "fit"
  if mode = "fit" then .ok (get_rendition_fit_size r spec output_scale)
  else if mode = "fill" then .ok (get_rendition_fill_size r spec output_scale)
  else if mode = "stretch" then .ok (get_rendition_stretch_size r spec output_scale)
  else .error (.valueError ("Unknown resize mode " ++ mode))

/-! ### Output path construction (`Image.get_rendition`, lines 58-97) -/

/-- Modelled from the spec: `config.image_output_subdir` (configuration, not
in src) — the fixed output root under the static folder. -/
def image_output_subdir : String := "_img"

/-- Lines 62-65: the effective extension — `'.' + format` when a format was
requested (truthy), otherwise the source file's extension. -/
def ext_of (r : ImageRecord) (spec : RenditionSpec) : String :=
  match spec.format with
  | some f => if f ≠ "" then "." ++ f else (splitext (pybasename r.file_path)).2
  | none => (splitext (pybasename r.file_path)).2

/-- Lines 62-65: `flatten` is set only when a format was requested, and is
true when that format's extension is not `.png`/`.gif`. -/
def flatten_flag (spec : RenditionSpec) : Bool :=
  match spec.format with
  | some f => if f ≠ "" then !("." ++ f = ".png" ∨ "." ++ f = ".gif" : Bool) else false
  | none => false

/-- Lines 73-74: the size token, present only when the resolved size is
strictly smaller than the base in some dimension. -/
def size_chunk (r : ImageRecord) (size : ℤ × ℤ) : List String :=
  if size.1 < r.width ∨ size.2 < r.height
  then [pyjoin "x" [strInt size.1, strInt size.2]] else []

/-- Lines 75-76: the crop-box token, present when a box is present. -/
def box_chunk : Option (ℤ × ℤ × ℤ × ℤ) → List String
  | some (x0, y0, x1, y1) => [pyjoin "-" [strInt x0, strInt y0, strInt x1, strInt y1]]
  | none => []

/-- Encoding of a background colour (lines 80-83). -/
def bg_encode : BgColor → String
  | .tup components => pyjoin "-" (components.map strNat)
  | .scalar value => value

/-- Lines 78-83: the background token, present only when `flatten` is set and
a background was supplied. -/
def bg_chunk (spec : RenditionSpec) : List String :=
  if flatten_flag spec then
    match spec.background with
    | some c => ["b" ++ bg_encode c]
    | none => []
  else []

/-- Lines 85-89: the quality token, present for `.jpg`/`.jpeg` output when a
truthy quality was supplied. -/
def quality_chunk (spec : RenditionSpec) (ext : String) : List String :=
  if ext = ".jpg" ∨ ext = ".jpeg" then
    match spec.quality with
    | some q => if q ≠ 0 then ["q" ++ strNat q] else []
    | none => []
  else []

/-- Lines 67-89: the ordered `out_spec` token list. -/
def out_spec_list (r : ImageRecord) (spec : RenditionSpec) (size : ℤ × ℤ)
    (box : Option (ℤ × ℤ × ℤ × ℤ)) : List String :=
  [make_slug (splitext (pybasename r.file_path)).1, takeLast 10 r.checksum]
    ++ size_chunk r size ++ box_chunk box ++ bg_chunk spec
    ++ quality_chunk spec (ext_of r spec)

/-- Line 92: `'_'.join(out_spec) + ext`. -/
def out_basename_of (r : ImageRecord) (spec : RenditionSpec) (size : ℤ × ℤ)
    (box : Option (ℤ × ℤ × ℤ × ℤ)) : String :=
  pyjoin "_" (out_spec_list r spec size box) ++ ext_of r spec

/-- Lines 93-97: the sharded relative output path. -/
def out_rel_path_of (r : ImageRecord) (spec : RenditionSpec) (size : ℤ × ℤ)
    (box : Option (ℤ × ℤ × ℤ × ℤ)) : String :=
  pyjoin "/" [image_output_subdir, r.checksum.take 2, (r.checksum.drop 2).take 4,
    out_basename_of r spec size box]

/-- The pure core of `Image.get_rendition` (lines 58-115): resolve the
geometry, build the output path, and return `(relative_path, size)`.  The
filesystem and codec work (lines 98-113) belongs to external collaborators. -/
def get_rendition (r : ImageRecord) (spec : RenditionSpec) (output_scale : ℚ) :
    Except PyError (String × (ℤ × ℤ)) := do
  let (size, box) ← get_rendition_size r spec output_scale
  return (out_rel_path_of r spec size box, size)

/-- The relative path component of `get_rendition`'s result. -/
def rendition_path (r : ImageRecord) (spec : RenditionSpec) (output_scale : ℚ) :
    Except PyError String :=
  (get_rendition r spec output_scale).map Prod.fst

/-- Inverse of `Nat.digitChar` on decimal digits. -/
def charVal (c : Char) : ℕ := c.toNat - 48

/-- Decode a big-endian decimal numeral; retraction of `strNat`. -/
def decodeNat (s : String) : ℕ := Nat.ofDigits 10 ((s.data.map charVal).reverse)

/-- The tail form of a `"_"`-join: `jt l` is what `pyjoin "_"` appends after
its first element when the remaining elements are `l`. -/
def jt : List String → String
  | [] => ""
  | a :: rest => "_" ++ a ++ jt rest

/-! ### Well-formedness of constraint sets (spec §3 data model) -/

/-- An optional numeric field that, when supplied, is strictly positive. -/
def optPos (o : Option ℚ) : Prop :=
  match o with
  | none => True
  | some x => 0 < x

instance (o : Option ℚ) : Decidable (optPos o) :=
  match o with
  | none => inferInstanceAs (Decidable True)
  | some x => inferInstanceAs (Decidable (0 < x))

/-- An optional fraction field that, when supplied, lies in `[0, 1]`. -/
def optUnit (o : Option ℚ) : Prop :=
  match o with
  | none => True
  | some x => 0 ≤ x ∧ x ≤ 1

instance (o : Option ℚ) : Decidable (optUnit o) :=
  match o with
  | none => inferInstanceAs (Decidable True)
  | some x => inferInstanceAs (Decidable (0 ≤ x ∧ x ≤ 1))

/-- A crop box (when present) has nonnegative coordinates. -/
def boxNonneg : Option (ℤ × ℤ × ℤ × ℤ) → Prop
  | none => True
  | some (x0, y0, x1, y1) => 0 ≤ x0 ∧ 0 ≤ y0 ∧ 0 ≤ x1 ∧ 0 ≤ y1

instance (b : Option (ℤ × ℤ × ℤ × ℤ)) : Decidable (boxNonneg b) :=
  match b with
  | none => inferInstanceAs (Decidable True)
  | some (_, _, _, _) => inferInstanceAs (Decidable (_ ∧ _ ∧ _ ∧ _))

/-- Spec §3: all supplied numeric constraints are strictly positive and the
fill-crop fractions lie in `[0, 1]`. -/
def SpecWF (spec : RenditionSpec) : Prop :=
  optPos spec.scale ∧ optPos spec.scale_min_width ∧ optPos spec.scale_min_height ∧
  optPos spec.width ∧ optPos spec.height ∧ optPos spec.max_width ∧
  optPos spec.max_height ∧ optUnit spec.fill_crop_x ∧ optUnit spec.fill_crop_y

instance (spec : RenditionSpec) : Decidable (SpecWF spec) :=
  inferInstanceAs (Decidable (_ ∧ _))

/-! ## Helper lemmas: rounding -/

theorem pyint_of_nonneg {q : ℚ} (h : 0 ≤ q) : pyint q = ⌊q⌋ := if_pos h

theorem round_eq_floor {x : ℚ} (h : 0 ≤ x) : round x = ⌊x + 1/2⌋ :=
  pyint_of_nonneg (by linarith)

theorem round_nonneg {x : ℚ} (h : 0 ≤ x) : 0 ≤ round x := by
  rw [round_eq_floor h]
  exact Int.floor_nonneg.mpr (by linarith)

theorem pyint_mono : Monotone pyint := by
  intro x y hxy
  unfold pyint
  rcases le_or_lt 0 x with hx | hx
  · rw [if_pos hx, if_pos (hx.trans hxy)]
    exact Int.floor_mono hxy
  · rcases le_or_lt 0 y with hy | hy
    · rw [if_neg (not_le.mpr hx), if_pos hy]
      exact (Int.ceil_le.mpr (by exact_mod_cast hx.le)).trans (Int.floor_nonneg.mpr hy)
    · rw [if_neg (not_le.mpr hx), if_neg (not_le.mpr hy)]
      exact Int.ceil_mono hxy

theorem round_mono {x y : ℚ} (h : x ≤ y) : round x ≤ round y :=
  pyint_mono (by simpa using h)

theorem round_intCast (n : ℤ) (h : 0 ≤ n) : round ((n : ℚ)) = n := by
  rw [round_eq_floor (by exact_mod_cast h), Int.floor_int_add]
  norm_num

/-! ## Helper lemmas: positivity through the pipeline -/

theorem scale_pass_pos {s? : Option ℚ} {wh : ℚ × ℚ} (hs : optPos s?)
    (h1 : 0 < wh.1) (h2 : 0 < wh.2) :
    0 < (scale_pass s? wh).1 ∧ 0 < (scale_pass s? wh).2 := by
  match s? with
  | none => exact ⟨h1, h2⟩
  | some s =>
    simp only [optPos] at hs
    simp only [scale_pass, if_pos (ne_of_gt hs)]
    exact ⟨div_pos h1 hs, div_pos h2 hs⟩

theorem fit_min_width_pos {o : Option ℚ} {wh : ℚ × ℚ} (ho : optPos o)
    (h1 : 0 < wh.1) (h2 : 0 < wh.2) :
    0 < (fit_min_width o wh).1 ∧ 0 < (fit_min_width o wh).2 := by
  match o with
  | none => exact ⟨h1, h2⟩
  | some m =>
    simp only [optPos] at ho
    simp only [fit_min_width]
    split
    · exact ⟨ho, div_pos (mul_pos h2 ho) h1⟩
    · exact ⟨h1, h2⟩

theorem fit_min_height_pos {o : Option ℚ} {wh : ℚ × ℚ} (ho : optPos o)
    (h1 : 0 < wh.1) (h2 : 0 < wh.2) :
    0 < (fit_min_height o wh).1 ∧ 0 < (fit_min_height o wh).2 := by
  match o with
  | none => exact ⟨h1, h2⟩
  | some m =>
    simp only [optPos] at ho
    simp only [fit_min_height]
    split
    · exact ⟨div_pos (mul_pos h1 ho) h2, ho⟩
    · exact ⟨h1, h2⟩

theorem fit_clamp_width_pos {o : Option ℚ} {wh : ℚ × ℚ} (ho : optPos o)
    (h1 : 0 < wh.1) (h2 : 0 < wh.2) :
    0 < (fit_clamp_width o wh).1 ∧ 0 < (fit_clamp_width o wh).2 := by
  match o with
  | none => exact ⟨h1, h2⟩
  | some t =>
    simp only [optPos] at ho
    simp only [fit_clamp_width]
    split
    · exact ⟨ho, div_pos (mul_pos h2 ho) h1⟩
    · exact ⟨h1, h2⟩

theorem fit_clamp_height_pos {o : Option ℚ} {wh : ℚ × ℚ} (ho : optPos o)
    (h1 : 0 < wh.1) (h2 : 0 < wh.2) :
    0 < (fit_clamp_height o wh).1 ∧ 0 < (fit_clamp_height o wh).2 := by
  match o with
  | none => exact ⟨h1, h2⟩
  | some t =>
    simp only [optPos] at ho
    simp only [fit_clamp_height]
    split
    · exact ⟨div_pos (mul_pos h1 ho) h2, ho⟩
    · exact ⟨h1, h2⟩

theorem indep_min_width_pos {o : Option ℚ} {wh : ℚ × ℚ} (ho : optPos o)
    (h1 : 0 < wh.1) (h2 : 0 < wh.2) :
    0 < (indep_min_width o wh).1 ∧ 0 < (indep_min_width o wh).2 := by
  match o with
  | none => exact ⟨h1, h2⟩
  | some m =>
    simp only [optPos] at ho
    simp only [indep_min_width]
    split
    · exact ⟨ho, h2⟩
    · exact ⟨h1, h2⟩

theorem indep_min_height_pos {o : Option ℚ} {wh : ℚ × ℚ} (ho : optPos o)
    (h1 : 0 < wh.1) (h2 : 0 < wh.2) :
    0 < (indep_min_height o wh).1 ∧ 0 < (indep_min_height o wh).2 := by
  match o with
  | none => exact ⟨h1, h2⟩
  | some m =>
    simp only [optPos] at ho
    simp only [indep_min_height]
    split
    · exact ⟨h1, ho⟩
    · exact ⟨h1, h2⟩

theorem indep_clamp_width_pos {o : Option ℚ} {wh : ℚ × ℚ} (ho : optPos o)
    (h1 : 0 < wh.1) (h2 : 0 < wh.2) :
    0 < (indep_clamp_width o wh).1 ∧ 0 < (indep_clamp_width o wh).2 := by
  match o with
  | none => exact ⟨h1, h2⟩
  | some t =>
    simp only [optPos] at ho
    simp only [indep_clamp_width]
    split
    · exact ⟨ho, h2⟩
    · exact ⟨h1, h2⟩

theorem indep_clamp_height_pos {o : Option ℚ} {wh : ℚ × ℚ} (ho : optPos o)
    (h1 : 0 < wh.1) (h2 : 0 < wh.2) :
    0 < (indep_clamp_height o wh).1 ∧ 0 < (indep_clamp_height o wh).2 := by
  match o with
  | none => exact ⟨h1, h2⟩
  | some t =>
    simp only [optPos] at ho
    simp only [indep_clamp_height]
    split
    · exact ⟨h1, ho⟩
    · exact ⟨h1, h2⟩

theorem indep_size_pass_pos {spec : RenditionSpec} {wh : ℚ × ℚ} {os : ℚ}
    (hwf : SpecWF spec) (hos : 0 < os) (h1 : 0 < wh.1) (h2 : 0 < wh.2) :
    0 < (indep_size_pass spec wh os).1 ∧ 0 < (indep_size_pass spec wh os).2 := by
  obtain ⟨hs, hmw, hmh, hw, hh, hxw, _, _, _⟩ := hwf
  unfold indep_size_pass
  have p1 := scale_pass_pos hs h1 h2
  have p2 := indep_min_width_pos hmw p1.1 p1.2
  have p3 := indep_min_height_pos hmh p2.1 p2.2
  have p4 := indep_clamp_width_pos hw p3.1 p3.2
  have p5 := indep_clamp_height_pos hh p4.1 p4.2
  have p6 := indep_clamp_width_pos hxw p5.1 p5.2
  have p7 := indep_clamp_height_pos hh p6.1 p6.2
  exact ⟨mul_pos p7.1 hos, mul_pos p7.2 hos⟩

theorem fit_size_pass_pos {spec : RenditionSpec} {wh : ℚ × ℚ} {os : ℚ}
    (hwf : SpecWF spec) (hos : 0 < os) (h1 : 0 < wh.1) (h2 : 0 < wh.2) :
    0 < (fit_size_pass spec wh os).1 ∧ 0 < (fit_size_pass spec wh os).2 := by
  obtain ⟨hs, hmw, hmh, hw, hh, hxw, _, _, _⟩ := hwf
  unfold fit_size_pass
  have p1 := scale_pass_pos hs h1 h2
  have p2 := fit_min_width_pos hmw p1.1 p1.2
  have p3 := fit_min_height_pos hmh p2.1 p2.2
  have p4 := fit_clamp_width_pos hw p3.1 p3.2
  have p5 := fit_clamp_height_pos hh p4.1 p4.2
  have p6 := fit_clamp_width_pos hxw p5.1 p5.2
  have p7 := fit_clamp_height_pos hh p6.1 p6.2
  exact ⟨mul_pos p7.1 hos, mul_pos p7.2 hos⟩

theorem fill_clamp_base_w_pos {iw : ℚ} {wh : ℚ × ℚ} (hiw : 0 < iw)
    (h1 : 0 < wh.1) (h2 : 0 < wh.2) :
    0 < (fill_clamp_base_w iw wh).1 ∧ 0 < (fill_clamp_base_w iw wh).2 := by
  unfold fill_clamp_base_w
  split
  · exact ⟨hiw, div_pos (mul_pos h2 hiw) h1⟩
  · exact ⟨h1, h2⟩

theorem fill_clamp_base_h_pos {ih : ℚ} {wh : ℚ × ℚ} (hih : 0 < ih)
    (h1 : 0 < wh.1) (h2 : 0 < wh.2) :
    0 < (fill_clamp_base_h ih wh).1 ∧ 0 < (fill_clamp_base_h ih wh).2 := by
  unfold fill_clamp_base_h
  split
  · exact ⟨div_pos (mul_pos h1 hih) h2, hih⟩
  · exact ⟨h1, h2⟩

theorem optUnit_getD_half {o : Option ℚ} (h : optUnit o) :
    0 ≤ o.getD (1/2) ∧ o.getD (1/2) ≤ 1 := by
  match o with
  | none => norm_num [Option.getD]
  | some x => exact h

theorem fill_clamp_base_w_le {iw : ℚ} {wh : ℚ × ℚ} :
    (fill_clamp_base_w iw wh).1 ≤ iw ∨ (fill_clamp_base_w iw wh).1 = wh.1 := by
  unfold fill_clamp_base_w
  split
  · exact Or.inl le_rfl
  · exact Or.inr rfl

theorem fill_clamp_base_w_fst_le {iw : ℚ} {wh : ℚ × ℚ} :
    (fill_clamp_base_w iw wh).1 ≤ iw := by
  unfold fill_clamp_base_w
  split
  · exact le_rfl
  · exact le_of_not_lt (by assumption)

theorem fill_clamp_base_h_snd_le {ih : ℚ} {wh : ℚ × ℚ} :
    (fill_clamp_base_h ih wh).2 ≤ ih := by
  unfold fill_clamp_base_h
  split
  · exact le_rfl
  · exact le_of_not_lt (by assumption)

theorem fill_clamp_base_h_fst_le {ih : ℚ} {wh : ℚ × ℚ}
    (hw : 0 ≤ wh.1) (hih : 0 ≤ ih) : (fill_clamp_base_h ih wh).1 ≤ wh.1 := by
  unfold fill_clamp_base_h
  split
  · rename_i hgt
    have hpos : 0 < wh.2 := lt_of_le_of_lt hih hgt
    rw [div_le_iff₀ hpos]
    calc wh.1 * ih ≤ wh.1 * wh.2 := mul_le_mul_of_nonneg_left hgt.le hw
    _ = wh.1 * wh.2 := rfl
  · exact le_rfl

/-- The final fill width/height are positive and bounded by the base, under
well-formed constraints. -/
theorem fill_final_bounds {r : ImageRecord} {spec : RenditionSpec} {os : ℚ}
    (h1 : 1 ≤ r.width) (h2 : 1 ≤ r.height) (hwf : SpecWF spec) (hos : 0 < os) :
    0 < (fill_final r spec os).1 ∧ 0 < (fill_final r spec os).2 ∧
    (fill_final r spec os).1 ≤ (r.width : ℚ) ∧ (fill_final r spec os).2 ≤ (r.height : ℚ) := by
  have hiw : (0 : ℚ) < (r.width : ℚ) := by exact_mod_cast lt_of_lt_of_le Int.zero_lt_one h1
  have hih : (0 : ℚ) < (r.height : ℚ) := by exact_mod_cast lt_of_lt_of_le Int.zero_lt_one h2
  have hW : 0 < (indep_size_pass spec ((r.width : ℚ), (r.height : ℚ)) os).1 ∧
      0 < (indep_size_pass spec ((r.width : ℚ), (r.height : ℚ)) os).2 :=
    indep_size_pass_pos hwf hos hiw hih
  have hW1 := fill_clamp_base_w_pos hiw hW.1 hW.2
  have hW2 := fill_clamp_base_h_pos hih hW1.1 hW1.2
  refine ⟨hW2.1, hW2.2, ?_, fill_clamp_base_h_snd_le⟩
  calc (fill_final r spec os).1
      ≤ (fill_clamp_base_w (r.width : ℚ)
          (indep_size_pass spec ((r.width : ℚ), (r.height : ℚ)) os)).1 :=
        fill_clamp_base_h_fst_le hW1.1.le hih.le
    _ ≤ (r.width : ℚ) := fill_clamp_base_w_fst_le

theorem fill_box_w_bounds {r : ImageRecord} {spec : RenditionSpec} {os : ℚ}
    (h1 : 1 ≤ r.width) (h2 : 1 ≤ r.height) (hwf : SpecWF spec) (hos : 0 < os) :
    0 ≤ fill_box_w r spec os ∧ fill_box_w r spec os ≤ r.width := by
  have hf := fill_final_bounds h1 h2 hwf hos
  have harg : (0 : ℚ) ≤ (fill_final r spec os).1 * (r.height : ℚ) / (fill_final r spec os).2 := by
    have hih : (0 : ℚ) < (r.height : ℚ) := by exact_mod_cast lt_of_lt_of_le Int.zero_lt_one h2
    exact le_of_lt (div_pos (mul_pos hf.1 hih) hf.2.1)
  exact ⟨le_min (by omega) (round_nonneg harg), min_le_left _ _⟩

theorem fill_box_h_bounds {r : ImageRecord} {spec : RenditionSpec} {os : ℚ}
    (h1 : 1 ≤ r.width) (h2 : 1 ≤ r.height) (hwf : SpecWF spec) (hos : 0 < os) :
    0 ≤ fill_box_h r spec os ∧ fill_box_h r spec os ≤ r.height := by
  have hf := fill_final_bounds h1 h2 hwf hos
  have harg : (0 : ℚ) ≤ (fill_final r spec os).2 * (r.width : ℚ) / (fill_final r spec os).1 := by
    have hiw : (0 : ℚ) < (r.width : ℚ) := by exact_mod_cast lt_of_lt_of_le Int.zero_lt_one h1
    exact le_of_lt (div_pos (mul_pos hf.2.1 hiw) hf.1)
  exact ⟨le_min (by omega) (round_nonneg harg), min_le_left _ _⟩

/-- Generic bound for the crop-box offsets: `round(d * f)` lies in `[0, d]`
for `0 ≤ d` and `f ∈ [0, 1]`. -/
theorem round_offset_bounds {d : ℤ} {f : ℚ} (hd : 0 ≤ d) (hf0 : 0 ≤ f) (hf1 : f ≤ 1) :
    0 ≤ round ((d : ℚ) * f) ∧ round ((d : ℚ) * f) ≤ d := by
  have hdq : (0 : ℚ) ≤ (d : ℚ) := by exact_mod_cast hd
  have harg0 : (0 : ℚ) ≤ (d : ℚ) * f := mul_nonneg hdq hf0
  have harg1 : (d : ℚ) * f ≤ (d : ℚ) := mul_le_of_le_one_right hdq hf1
  refine ⟨round_nonneg harg0, ?_⟩
  calc round ((d : ℚ) * f) ≤ round ((d : ℚ)) := round_mono harg1
  _ = d := round_intCast d hd

theorem pyint_intCast (m : ℤ) : pyint ((m : ℚ)) = m := by
  unfold pyint
  split
  · exact Int.floor_intCast m
  · exact Int.ceil_intCast m

/-! ## Helper lemmas: strings and numerals -/

theorem str_ext {s t : String} (h : s.data = t.data) : s = t := by
  cases s
  cases t
  cases h
  rfl

theorem charVal_digitChar {d : ℕ} (h : d < 10) : charVal (Nat.digitChar d) = d := by
  interval_cases d <;> rfl

theorem digitChar_isDigit {d : ℕ} (h : d < 10) : (Nat.digitChar d).isDigit = true := by
  interval_cases d <;> decide

theorem strNat_isDigit {n : ℕ} {c : Char} (hc : c ∈ (strNat n).data) :
    c.isDigit = true := by
  by_cases h : n = 0
  · subst h
    have hc0 : c ∈ ['0'] := hc
    simp only [List.mem_singleton] at hc0
    subst hc0
    decide
  · simp only [strNat, if_neg h] at hc
    rw [List.mem_reverse, List.mem_map] at hc
    obtain ⟨d, hd, rfl⟩ := hc
    exact digitChar_isDigit (Nat.digits_lt_base (by norm_num) hd)

theorem strNat_data_ne_nil (n : ℕ) : (strNat n).data ≠ [] := by
  by_cases h : n = 0
  · subst h
    simp [strNat]
  · simp only [strNat, if_neg h]
    simp only [ne_eq, List.reverse_eq_nil_iff, List.map_eq_nil]
    exact Nat.digits_ne_nil_iff_ne_zero.mpr h

theorem decodeNat_strNat (n : ℕ) : decodeNat (strNat n) = n := by
  by_cases h : n = 0
  · subst h
    rfl
  · simp only [strNat, if_neg h, decodeNat, List.map_reverse, List.reverse_reverse,
      List.map_map]
    have hmap : List.map (charVal ∘ Nat.digitChar) (Nat.digits 10 n)
        = List.map id (Nat.digits 10 n) :=
      List.map_congr_left (fun d hd =>
        charVal_digitChar (Nat.digits_lt_base (by norm_num) hd))
    rw [hmap, List.map_id]
    exact Nat.ofDigits_digits 10 n

theorem strNat_inj {a b : ℕ} (h : strNat a = strNat b) : a = b := by
  have := congrArg decodeNat h
  rwa [decodeNat_strNat, decodeNat_strNat] at this

theorem strInt_chars {n : ℤ} {c : Char} (hc : c ∈ (strInt n).data) :
    c = '-' ∨ c.isDigit = true := by
  unfold strInt at hc
  split at hc
  · rw [String.data_append] at hc
    rcases List.mem_append.mp hc with h | h
    · left
      simpa using h
    · exact Or.inr (strNat_isDigit h)
  · exact Or.inr (strNat_isDigit hc)

theorem strInt_data_ne_nil (n : ℤ) : (strInt n).data ≠ [] := by
  unfold strInt
  split
  · rw [String.data_append]
    simp
  · exact strNat_data_ne_nil _

theorem strInt_of_nonneg {n : ℤ} (h : 0 ≤ n) : strInt n = strNat n.natAbs := by
  unfold strInt
  rw [if_neg (not_lt.mpr h)]

theorem strInt_inj {a b : ℤ} (h : strInt a = strInt b) : a = b := by
  have hdig : ∀ m : ℕ, '-' ∉ (strNat m).data := by
    intro m hm
    have := strNat_isDigit hm
    simp at this
  unfold strInt at h
  split at h <;> split at h
  · rename_i ha hb
    have : strNat a.natAbs = strNat b.natAbs := by
      have hd := congrArg String.data h
      rw [String.data_append, String.data_append] at hd
      exact str_ext (List.append_cancel_left hd)
    have := strNat_inj this
    omega
  · rename_i ha hb
    exfalso
    have hd := congrArg String.data h
    rw [String.data_append] at hd
    have hmem : '-' ∈ (strNat b.natAbs).data := by
      rw [← hd]
      simp
    exact hdig _ hmem
  · rename_i ha hb
    exfalso
    have hd := congrArg String.data h
    rw [String.data_append] at hd
    have hmem : '-' ∈ (strNat a.natAbs).data := by
      rw [hd]
      simp
    exact hdig _ hmem
  · rename_i ha hb
    have := strNat_inj h
    omega

/-- Splitting at the first occurrence of a separator is unambiguous. -/
theorem split_first_sep {sep : Char} :
    ∀ a b u v : List Char, sep ∉ a → sep ∉ b →
      a ++ sep :: u = b ++ sep :: v → a = b ∧ u = v := by
  intro a
  induction a with
  | nil =>
    intro b u v _ hb h
    cases b with
    | nil => simpa using h
    | cons c bs =>
      exfalso
      simp only [List.nil_append, List.cons_append, List.cons.injEq] at h
      exact hb (h.1 ▸ List.mem_cons_self c bs)
  | cons c as ih =>
    intro b u v ha hb h
    cases b with
    | nil =>
      exfalso
      simp only [List.nil_append, List.cons_append, List.cons.injEq] at h
      exact ha (h.1.symm ▸ List.mem_cons_self sep as)
    | cons d bs =>
      simp only [List.cons_append, List.cons.injEq] at h
      obtain ⟨rfl, h2⟩ := h
      have := ih bs u v (fun hm => ha (List.mem_cons_of_mem _ hm))
        (fun hm => hb (List.mem_cons_of_mem _ hm)) h2
      exact ⟨by rw [this.1], this.2⟩

/-! ## Helper lemmas: joins -/

theorem pyjoin_cons (a : String) (l : List String) :
    pyjoin "_" (a :: l) = a ++ jt l := by
  induction l generalizing a with
  | nil => simp [pyjoin, jt]
  | cons b m ih =>
    simp only [pyjoin, jt, ih b]
    rw [String.append_assoc a, String.append_assoc "_"]

theorem jt_append (l₁ l₂ : List String) : jt (l₁ ++ l₂) = jt l₁ ++ jt l₂ := by
  induction l₁ with
  | nil => simp [jt]
  | cons a m ih =>
    simp only [List.cons_append, List.append_eq, jt]
    rw [ih, ← String.append_assoc]

/-- `pyjoin "-"` is injective on lists of nonempty, dash-free chunks. -/
theorem pyjoin_dash_inj :
    ∀ l₁ l₂ : List String,
      (∀ s ∈ l₁, s.data ≠ [] ∧ '-' ∉ s.data) →
      (∀ s ∈ l₂, s.data ≠ [] ∧ '-' ∉ s.data) →
      pyjoin "-" l₁ = pyjoin "-" l₂ → l₁ = l₂ := by
  intro l₁
  induction l₁ with
  | nil =>
    intro l₂ _ h₂ h
    cases l₂ with
    | nil => rfl
    | cons y ys =>
      exfalso
      cases ys with
      | nil =>
        exact (h₂ y (List.mem_cons_self _ _)).1 (congrArg String.data h).symm
      | cons z zs =>
        have hd := congrArg String.data h
        simp only [pyjoin, String.data_append] at hd
        rcases List.append_eq_nil.mp hd.symm with ⟨h1, _⟩
        rcases List.append_eq_nil.mp h1 with ⟨hy, _⟩
        exact (h₂ y (List.mem_cons_self _ _)).1 hy
  | cons x xs ih =>
    intro l₂ h₁ h₂ h
    cases l₂ with
    | nil =>
      exfalso
      cases xs with
      | nil =>
        exact (h₁ x (List.mem_cons_self _ _)).1 (congrArg String.data h)
      | cons z zs =>
        have hd := congrArg String.data h
        simp only [pyjoin, String.data_append] at hd
        rcases List.append_eq_nil.mp hd with ⟨h1, _⟩
        rcases List.append_eq_nil.mp h1 with ⟨hy, _⟩
        exact (h₁ x (List.mem_cons_self _ _)).1 hy
    | cons y ys =>
      cases xs with
      | nil =>
        cases ys with
        | nil => exact congrArg (fun s => [s]) h
        | cons z zs =>
          exfalso
          have hd := congrArg String.data h
          simp only [pyjoin, String.data_append] at hd
          have hmem : '-' ∈ x.data := by
            rw [hd]
            refine List.mem_append.mpr (Or.inl (List.mem_append.mpr (Or.inr ?_)))
            decide
          exact (h₁ x (List.mem_cons_self _ _)).2 hmem
      | cons w ws =>
        cases ys with
        | nil =>
          exfalso
          have hd := congrArg String.data h
          simp only [pyjoin, String.data_append] at hd
          have hmem : '-' ∈ y.data := by
            rw [← hd]
            refine List.mem_append.mpr (Or.inl (List.mem_append.mpr (Or.inr ?_)))
            decide
          exact (h₂ y (List.mem_cons_self _ _)).2 hmem
        | cons z zs =>
          have hd := congrArg String.data h
          simp only [pyjoin, String.data_append] at hd
          rw [List.append_assoc, List.append_assoc] at hd
          have hsplit := split_first_sep x.data y.data _ _
            (h₁ x (List.mem_cons_self _ _)).2 (h₂ y (List.mem_cons_self _ _)).2
            (by simpa using hd)
          have hxy : x = y := str_ext hsplit.1
          have htail : pyjoin "-" (w :: ws) = pyjoin "-" (z :: zs) :=
            str_ext hsplit.2
          have := ih (z :: zs) (fun s hs => h₁ s (List.mem_cons_of_mem _ hs))
            (fun s hs => h₂ s (List.mem_cons_of_mem _ hs)) htail
          rw [hxy, this]

/-! ## Helper lemmas: tokens and path structure -/

theorem str_append_cancel_left {a x y : String} (h : a ++ x = a ++ y) : x = y := by
  have hd := congrArg String.data h
  rw [String.data_append, String.data_append] at hd
  exact str_ext (List.append_cancel_left hd)

theorem str_append_cancel_right {x y a : String} (h : x ++ a = y ++ a) : x = y := by
  have hd := congrArg String.data h
  rw [String.data_append, String.data_append] at hd
  exact str_ext (List.append_cancel_right hd)

theorem x_not_in_strInt (n : ℤ) : 'x' ∉ (strInt n).data := by
  intro h
  rcases strInt_chars h with h | h <;> simp at h

theorem dash_not_in_strNat (n : ℕ) : '-' ∉ (strNat n).data := by
  intro h
  have := strNat_isDigit h
  simp at this

/-- The size token `str(w) + "x" + str(h)` determines `(w, h)`. -/
theorem size_token_inj {w₁ h₁ w₂ h₂ : ℤ}
    (h : pyjoin "x" [strInt w₁, strInt h₁] = pyjoin "x" [strInt w₂, strInt h₂]) :
    w₁ = w₂ ∧ h₁ = h₂ := by
  simp only [pyjoin] at h
  have hd := congrArg String.data h
  simp only [String.data_append, List.append_assoc] at hd
  have hsplit := split_first_sep (strInt w₁).data (strInt w₂).data _ _
    (x_not_in_strInt w₁) (x_not_in_strInt w₂) (by simpa using hd)
  exact ⟨strInt_inj (str_ext hsplit.1), strInt_inj (str_ext hsplit.2)⟩

/-- The crop-box token determines the box, for boxes with nonnegative
coordinates. -/
theorem box_token_inj {a₁ b₁ c₁ d₁ a₂ b₂ c₂ d₂ : ℤ}
    (ha₁ : 0 ≤ a₁) (hb₁ : 0 ≤ b₁) (hc₁ : 0 ≤ c₁) (hd₁ : 0 ≤ d₁)
    (ha₂ : 0 ≤ a₂) (hb₂ : 0 ≤ b₂) (hc₂ : 0 ≤ c₂) (hd₂ : 0 ≤ d₂)
    (h : pyjoin "-" [strInt a₁, strInt b₁, strInt c₁, strInt d₁]
       = pyjoin "-" [strInt a₂, strInt b₂, strInt c₂, strInt d₂]) :
    a₁ = a₂ ∧ b₁ = b₂ ∧ c₁ = c₂ ∧ d₁ = d₂ := by
  rw [strInt_of_nonneg ha₁, strInt_of_nonneg hb₁, strInt_of_nonneg hc₁,
    strInt_of_nonneg hd₁, strInt_of_nonneg ha₂, strInt_of_nonneg hb₂,
    strInt_of_nonneg hc₂, strInt_of_nonneg hd₂] at h
  have hl := pyjoin_dash_inj _ _
    (by
      intro s hs
      simp only [List.mem_cons, List.mem_singleton, List.not_mem_nil, or_false] at hs
      rcases hs with rfl | rfl | rfl | rfl <;>
        exact ⟨strNat_data_ne_nil _, dash_not_in_strNat _⟩)
    (by
      intro s hs
      simp only [List.mem_cons, List.mem_singleton, List.not_mem_nil, or_false] at hs
      rcases hs with rfl | rfl | rfl | rfl <;>
        exact ⟨strNat_data_ne_nil _, dash_not_in_strNat _⟩)
    h
  simp only [List.cons.injEq, and_true] at hl
  obtain ⟨h1, h2, h3, h4⟩ := hl
  have e1 := strNat_inj h1
  have e2 := strNat_inj h2
  have e3 := strNat_inj h3
  have e4 := strNat_inj h4
  refine ⟨by omega, by omega, by omega, by omega⟩

/-- The background-tuple token determines the component list. -/
theorem bg_tup_token_inj {l₁ l₂ : List ℕ}
    (h : pyjoin "-" (l₁.map strNat) = pyjoin "-" (l₂.map strNat)) : l₁ = l₂ := by
  have hl := pyjoin_dash_inj _ _
    (by
      intro s hs
      obtain ⟨n, _, rfl⟩ := List.mem_map.mp hs
      exact ⟨strNat_data_ne_nil _, dash_not_in_strNat _⟩)
    (by
      intro s hs
      obtain ⟨n, _, rfl⟩ := List.mem_map.mp hs
      exact ⟨strNat_data_ne_nil _, dash_not_in_strNat _⟩)
    h
  exact (List.map_injective_iff.mpr (fun a b hab => strNat_inj hab)) hl

theorem size_chunk_len (r : ImageRecord) (z : ℤ × ℤ) : (size_chunk r z).length ≤ 1 := by
  unfold size_chunk
  split <;> simp

theorem box_chunk_len (b : Option (ℤ × ℤ × ℤ × ℤ)) : (box_chunk b).length ≤ 1 := by
  unfold box_chunk
  split <;> simp

theorem bg_chunk_len (s : RenditionSpec) : (bg_chunk s).length ≤ 1 := by
  unfold bg_chunk
  split
  · split <;> simp
  · simp

theorem quality_chunk_len (s : RenditionSpec) (e : String) :
    (quality_chunk s e).length ≤ 1 := by
  unfold quality_chunk
  split
  · split
    · split <;> simp
    · simp
  · simp

/-- `jt` is injective on chunk lists of length at most one. -/
theorem jt_chunk_inj {c₁ c₂ : List String} (h₁ : c₁.length ≤ 1) (h₂ : c₂.length ≤ 1)
    (h : jt c₁ = jt c₂) : c₁ = c₂ := by
  match c₁, c₂ with
  | [], [] => rfl
  | [], t :: ts =>
    exfalso
    have hd := congrArg String.data h
    simp only [jt, String.data_append] at hd
    simp at hd
  | t :: ts, [] =>
    exfalso
    have hd := congrArg String.data h
    simp only [jt, String.data_append] at hd
    simp at hd
  | [t₁], [t₂] =>
    have hd := congrArg String.data h
    simp only [jt, String.data_append] at hd
    rw [show t₁ = t₂ from str_ext (by simpa using hd)]
  | t₁ :: u :: us, _ => simp at h₁
  | _, t₂ :: u :: us => simp at h₂

theorem jt4_cancel_1 {a₁ a₂ b c d : List String}
    (h : jt (a₁ ++ b ++ c ++ d) = jt (a₂ ++ b ++ c ++ d)) : jt a₁ = jt a₂ := by
  simp only [jt_append] at h
  exact str_append_cancel_right (str_append_cancel_right (str_append_cancel_right h))

theorem jt4_cancel_2 {a b₁ b₂ c d : List String}
    (h : jt (a ++ b₁ ++ c ++ d) = jt (a ++ b₂ ++ c ++ d)) : jt b₁ = jt b₂ := by
  simp only [jt_append] at h
  exact str_append_cancel_left
    (str_append_cancel_right (str_append_cancel_right h))

theorem jt4_cancel_3 {a b c₁ c₂ d : List String}
    (h : jt (a ++ b ++ c₁ ++ d) = jt (a ++ b ++ c₂ ++ d)) : jt c₁ = jt c₂ := by
  simp only [jt_append] at h
  exact str_append_cancel_left (str_append_cancel_right h)

theorem jt4_cancel_4 {a b c d₁ d₂ : List String}
    (h : jt (a ++ b ++ c ++ d₁) = jt (a ++ b ++ c ++ d₂)) : jt d₁ = jt d₂ := by
  simp only [jt_append] at h
  exact str_append_cancel_left h

theorem out_spec_list_eq (r : ImageRecord) (s : RenditionSpec) (z : ℤ × ℤ)
    (b : Option (ℤ × ℤ × ℤ × ℤ)) :
    out_spec_list r s z b
      = make_slug (splitext (pybasename r.file_path)).1 :: takeLast 10 r.checksum ::
        (size_chunk r z ++ box_chunk b ++ bg_chunk s ++ quality_chunk s (ext_of r s)) := by
  simp [out_spec_list, List.append_assoc]

theorem join_spec_cancel {slug chk : String} {rest₁ rest₂ : List String}
    (h : pyjoin "_" (slug :: chk :: rest₁) = pyjoin "_" (slug :: chk :: rest₂)) :
    jt rest₁ = jt rest₂ := by
  rw [pyjoin_cons, pyjoin_cons] at h
  have h2 := str_append_cancel_left h
  simp only [jt] at h2
  exact str_append_cancel_left h2

theorem rendition_path_ok {r : ImageRecord} {spec : RenditionSpec} {o : ℚ}
    {z : ℤ × ℤ} {b : Option (ℤ × ℤ × ℤ × ℤ)}
    (h : get_rendition_size r spec o = .ok (z, b)) :
    rendition_path r spec o = .ok (out_rel_path_of r spec z b) := by
  simp [rendition_path, get_rendition, h, Except.map]

theorem join4_slash_cancel {a b c d₁ d₂ : String}
    (h : pyjoin "/" [a, b, c, d₁] = pyjoin "/" [a, b, c, d₂]) : d₁ = d₂ := by
  simp only [pyjoin] at h
  exact str_append_cancel_left (str_append_cancel_left (str_append_cancel_left h))

theorem basename_split {r : ImageRecord} {s₁ s₂ : RenditionSpec} {z₁ z₂ : ℤ × ℤ}
    {b₁ b₂ : Option (ℤ × ℤ × ℤ × ℤ)} (hext : ext_of r s₁ = ext_of r s₂)
    (h : out_basename_of r s₁ z₁ b₁ = out_basename_of r s₂ z₂ b₂) :
    pyjoin "_" (out_spec_list r s₁ z₁ b₁) = pyjoin "_" (out_spec_list r s₂ z₂ b₂) := by
  unfold out_basename_of at h
  rw [hext] at h
  exact str_append_cancel_right h

theorem paths_differ_of_basename {r : ImageRecord} {s₁ s₂ : RenditionSpec}
    {o₁ o₂ : ℚ} {z₁ z₂ : ℤ × ℤ} {b₁ b₂ : Option (ℤ × ℤ × ℤ × ℤ)}
    (h₁ : get_rendition_size r s₁ o₁ = .ok (z₁, b₁))
    (h₂ : get_rendition_size r s₂ o₂ = .ok (z₂, b₂))
    (hbn : out_basename_of r s₁ z₁ b₁ ≠ out_basename_of r s₂ z₂ b₂) :
    rendition_path r s₁ o₁ ≠ rendition_path r s₂ o₂ := by
  rw [rendition_path_ok h₁, rendition_path_ok h₂]
  intro h
  simp only [Except.ok.injEq] at h
  exact hbn (join4_slash_cancel h)

theorem ext_of_congr {r : ImageRecord} {s₁ s₂ : RenditionSpec}
    (h : s₁.format = s₂.format) : ext_of r s₁ = ext_of r s₂ := by
  unfold ext_of
  rw [h]

theorem flatten_flag_congr {s₁ s₂ : RenditionSpec}
    (h : s₁.format = s₂.format) : flatten_flag s₁ = flatten_flag s₂ := by
  unfold flatten_flag
  rw [h]

theorem bg_chunk_congr {s₁ s₂ : RenditionSpec} (hf : s₁.format = s₂.format)
    (hb : s₁.background = s₂.background) : bg_chunk s₁ = bg_chunk s₂ := by
  unfold bg_chunk
  rw [flatten_flag_congr hf, hb]

theorem quality_chunk_congr {s₁ s₂ : RenditionSpec} {e : String}
    (hq : s₁.quality = s₂.quality) : quality_chunk s₁ e = quality_chunk s₂ e := by
  unfold quality_chunk
  rw [hq]

theorem bg_chunk_of_none {s : RenditionSpec} (h : s.background = none) :
    bg_chunk s = [] := by
  unfold bg_chunk
  rw [h]
  split <;> rfl

theorem quality_chunk_of_none {s : RenditionSpec} {e : String}
    (h : s.quality = none) : quality_chunk s e = [] := by
  unfold quality_chunk
  rw [h]
  split <;> rfl

theorem data_emptystr : ("" : String).data = [] := rfl

theorem data_dot : ("." : String).data = ['.'] := rfl

theorem jt_nil : jt [] = "" := rfl

theorem jt_singleton_data (t : String) : (jt [t]).data = '_' :: t.data := by
  have h : jt [t] = "_" ++ t ++ "" := rfl
  rw [h, String.data_append, String.data_append, data_emptystr, List.append_nil]
  rfl

/-- Whatever the supplied format does to the flatten flag and the jpeg check,
the background chunk is empty or the one background token. -/
theorem bg_chunk_cases {s : RenditionSpec} {c : BgColor}
    (hb : s.background = some c) :
    bg_chunk s = [] ∨ bg_chunk s = ["b" ++ bg_encode c] := by
  unfold bg_chunk
  split
  · exact Or.inr (by rw [hb])
  · exact Or.inl rfl

/-- Likewise the quality chunk is empty or the one quality token. -/
theorem quality_chunk_cases {s : RenditionSpec} {e : String} {q : ℕ}
    (hq : s.quality = some q) :
    quality_chunk s e = [] ∨ quality_chunk s e = ["q" ++ strNat q] := by
  unfold quality_chunk
  rw [hq]
  split
  · by_cases h0 : q = 0
    · exact Or.inl (by simp [h0])
    · exact Or.inr (by simp [h0])
  · exact Or.inl rfl

theorem quality_chunk_eval_zero {s : RenditionSpec} {e : String} {q : ℕ}
    (he : e = ".jpg" ∨ e = ".jpeg") (hq : s.quality = some q) (h0 : q = 0) :
    quality_chunk s e = [] := by
  unfold quality_chunk
  rw [if_pos he, hq]
  simp [h0]

/-- The filename splits into the shared slug/hash/size/box prefix and the
format-dependent tail. -/
theorem basename_decomp (r : ImageRecord) (s : RenditionSpec) (z : ℤ × ℤ)
    (b : Option (ℤ × ℤ × ℤ × ℤ)) :
    out_basename_of r s z b
      = (make_slug (splitext (pybasename r.file_path)).1 ++ "_" ++
          takeLast 10 r.checksum ++ jt (size_chunk r z) ++ jt (box_chunk b))
        ++ (jt (bg_chunk s) ++ (jt (quality_chunk s (ext_of r s)) ++ ext_of r s)) := by
  apply str_ext
  simp [out_basename_of, out_spec_list_eq, pyjoin_cons, jt, jt_append,
    String.data_append, List.append_assoc]

/-- The format-dependent tail of the filename determines the extension: the
background and quality tokens, present or not on either side, cannot make up
for a different extension. -/
theorem tail_disamb {bgtok qtok f₁ f₂ : String} {x y u v : List String}
    (hx : x = [] ∨ x = ["b" ++ bgtok]) (hy : y = [] ∨ y = ["b" ++ bgtok])
    (hu : u = [] ∨ u = ["q" ++ qtok]) (hv : v = [] ∨ v = ["q" ++ qtok])
    (h : jt x ++ (jt u ++ ("." ++ f₁)) = jt y ++ (jt v ++ ("." ++ f₂))) :
    f₁ = f₂ := by
  have hd := congrArg String.data h
  rcases hx with rfl | rfl <;> rcases hy with rfl | rfl <;>
    rcases hu with rfl | rfl <;> rcases hv with rfl | rfl <;>
    simp +decide [String.data_append, jt_nil, jt_singleton_data, data_emptystr,
      data_dot, List.append_assoc] at hd <;>
    exact str_ext hd

theorem size_chunk_of_not_lt {r : ImageRecord} {z : ℤ × ℤ}
    (h : ¬(z.1 < r.width ∨ z.2 < r.height)) : size_chunk r z = [] := by
  unfold size_chunk
  rw [if_neg h]

theorem size_chunk_of_lt {r : ImageRecord} {z : ℤ × ℤ}
    (h : z.1 < r.width ∨ z.2 < r.height) :
    size_chunk r z = [pyjoin "x" [strInt z.1, strInt z.2]] := by
  unfold size_chunk
  rw [if_pos h]

theorem quality_chunk_eval {s : RenditionSpec} {e : String} {q : ℕ}
    (he : e = ".jpg" ∨ e = ".jpeg") (hq : s.quality = some q) (h0 : q ≠ 0) :
    quality_chunk s e = ["q" ++ strNat q] := by
  unfold quality_chunk
  rw [if_pos he, hq]
  simp [h0]

theorem bg_chunk_eval {s : RenditionSpec} {c : BgColor}
    (hfl : flatten_flag s = true) (hb : s.background = some c) :
    bg_chunk s = ["b" ++ bg_encode c] := by
  unfold bg_chunk
  rw [hfl, hb]
  rfl

/-- The common reduction for the sensitivity clauses: equal paths entail equal
`jt` images of the variable chunk lists (having cancelled the shared slug,
checksum hash and extension). -/
theorem jt_rest_of_equal_paths {r : ImageRecord} {s₁ s₂ : RenditionSpec}
    {o₁ o₂ : ℚ} {z₁ z₂ : ℤ × ℤ} {b₁ b₂ : Option (ℤ × ℤ × ℤ × ℤ)}
    (h₁ : get_rendition_size r s₁ o₁ = .ok (z₁, b₁))
    (h₂ : get_rendition_size r s₂ o₂ = .ok (z₂, b₂))
    (hf : s₁.format = s₂.format)
    (hp : rendition_path r s₁ o₁ = rendition_path r s₂ o₂) :
    jt (size_chunk r z₁ ++ box_chunk b₁ ++ bg_chunk s₁ ++
        quality_chunk s₁ (ext_of r s₁))
      = jt (size_chunk r z₂ ++ box_chunk b₂ ++ bg_chunk s₂ ++
          quality_chunk s₂ (ext_of r s₂)) := by
  rw [rendition_path_ok h₁, rendition_path_ok h₂] at hp
  simp only [Except.ok.injEq] at hp
  have hbn := join4_slash_cancel hp
  have hjoin := basename_split (ext_of_congr hf) hbn
  rw [out_spec_list_eq, out_spec_list_eq] at hjoin
  exact join_spec_cancel hjoin

theorem path_size_sensitive {r : ImageRecord} {s₁ s₂ : RenditionSpec}
    {o₁ o₂ : ℚ} {z₁ z₂ : ℤ × ℤ} {b : Option (ℤ × ℤ × ℤ × ℤ)}
    (h₁ : get_rendition_size r s₁ o₁ = .ok (z₁, b))
    (h₂ : get_rendition_size r s₂ o₂ = .ok (z₂, b))
    (hf : s₁.format = s₂.format) (hbg : s₁.background = s₂.background)
    (hq : s₁.quality = s₂.quality)
    (hz : z₁ ≠ z₂) (hsm : z₁.1 < r.width ∨ z₁.2 < r.height) :
    rendition_path r s₁ o₁ ≠ rendition_path r s₂ o₂ := by
  intro hp
  have hrest := jt_rest_of_equal_paths h₁ h₂ hf hp
  rw [← bg_chunk_congr hf hbg, ← ext_of_congr hf, ← quality_chunk_congr hq] at hrest
  have hchunk := jt_chunk_inj (size_chunk_len r z₁) (size_chunk_len r z₂)
    (jt4_cancel_1 hrest)
  rw [size_chunk_of_lt hsm] at hchunk
  by_cases hsm2 : z₂.1 < r.width ∨ z₂.2 < r.height
  · rw [size_chunk_of_lt hsm2] at hchunk
    simp only [List.cons.injEq, and_true] at hchunk
    obtain ⟨hw, hh⟩ := size_token_inj hchunk
    exact hz (Prod.ext hw hh)
  · rw [size_chunk_of_not_lt hsm2] at hchunk
    simp at hchunk

theorem path_size_insensitive {r : ImageRecord} {s₁ s₂ : RenditionSpec}
    {o₁ o₂ : ℚ} {z₁ z₂ : ℤ × ℤ} {b : Option (ℤ × ℤ × ℤ × ℤ)}
    (h₁ : get_rendition_size r s₁ o₁ = .ok (z₁, b))
    (h₂ : get_rendition_size r s₂ o₂ = .ok (z₂, b))
    (hf : s₁.format = s₂.format) (hbg : s₁.background = s₂.background)
    (hq : s₁.quality = s₂.quality)
    (hsm1 : ¬(z₁.1 < r.width ∨ z₁.2 < r.height))
    (hsm2 : ¬(z₂.1 < r.width ∨ z₂.2 < r.height)) :
    rendition_path r s₁ o₁ = rendition_path r s₂ o₂ := by
  rw [rendition_path_ok h₁, rendition_path_ok h₂]
  unfold out_rel_path_of out_basename_of
  rw [out_spec_list_eq, out_spec_list_eq, size_chunk_of_not_lt hsm1,
    size_chunk_of_not_lt hsm2, ← bg_chunk_congr hf hbg, ← ext_of_congr hf,
    ← quality_chunk_congr hq]

theorem path_box_sensitive {r : ImageRecord} {s₁ s₂ : RenditionSpec}
    {o₁ o₂ : ℚ} {z : ℤ × ℤ} {b₁ b₂ : Option (ℤ × ℤ × ℤ × ℤ)}
    (h₁ : get_rendition_size r s₁ o₁ = .ok (z, b₁))
    (h₂ : get_rendition_size r s₂ o₂ = .ok (z, b₂))
    (hf : s₁.format = s₂.format) (hbg : s₁.background = s₂.background)
    (hq : s₁.quality = s₂.quality)
    (hbox : b₁ ≠ b₂) (hn₁ : boxNonneg b₁) (hn₂ : boxNonneg b₂) :
    rendition_path r s₁ o₁ ≠ rendition_path r s₂ o₂ := by
  intro hp
  have hrest := jt_rest_of_equal_paths h₁ h₂ hf hp
  rw [← bg_chunk_congr hf hbg, ← ext_of_congr hf, ← quality_chunk_congr hq] at hrest
  have hchunk := jt_chunk_inj (box_chunk_len b₁) (box_chunk_len b₂)
    (jt4_cancel_2 hrest)
  match b₁, b₂, hn₁, hn₂ with
  | none, none, _, _ => exact hbox rfl
  | none, some (a₂, e₂, c₂, d₂), _, _ => simp [box_chunk] at hchunk
  | some (a₁, e₁, c₁, d₁), none, _, _ => simp [box_chunk] at hchunk
  | some (a₁, e₁, c₁, d₁), some (a₂, e₂, c₂, d₂), hn₁, hn₂ =>
    simp only [box_chunk, List.cons.injEq, and_true] at hchunk
    obtain ⟨q1, q2, q3, q4⟩ := box_token_inj hn₁.1 hn₁.2.1 hn₁.2.2.1 hn₁.2.2.2
      hn₂.1 hn₂.2.1 hn₂.2.2.1 hn₂.2.2.2 hchunk
    apply hbox
    rw [q1, q2, q3, q4]

theorem path_quality_sensitive {r : ImageRecord} {s₁ s₂ : RenditionSpec}
    {o₁ o₂ : ℚ} {z : ℤ × ℤ} {b : Option (ℤ × ℤ × ℤ × ℤ)} {q₁ q₂ : ℕ}
    (h₁ : get_rendition_size r s₁ o₁ = .ok (z, b))
    (h₂ : get_rendition_size r s₂ o₂ = .ok (z, b))
    (hf : s₁.format = s₂.format) (hbg : s₁.background = s₂.background)
    (hq₁ : s₁.quality = some q₁) (hq₂ : s₂.quality = some q₂)
    (hne : q₁ ≠ q₂)
    (hext : ext_of r s₁ = ".jpg" ∨ ext_of r s₁ = ".jpeg") :
    rendition_path r s₁ o₁ ≠ rendition_path r s₂ o₂ := by
  intro hp
  have hrest := jt_rest_of_equal_paths h₁ h₂ hf hp
  rw [← bg_chunk_congr hf hbg, ← ext_of_congr hf] at hrest
  have hchunk := jt_chunk_inj (quality_chunk_len s₁ _) (quality_chunk_len s₂ _)
    (jt4_cancel_4 hrest)
  by_cases h01 : q₁ = 0
  · have h02 : q₂ ≠ 0 := fun h => hne (by rw [h01, h])
    rw [quality_chunk_eval_zero hext hq₁ h01,
      quality_chunk_eval hext hq₂ h02] at hchunk
    simp at hchunk
  · by_cases h02 : q₂ = 0
    · rw [quality_chunk_eval hext hq₁ h01,
        quality_chunk_eval_zero hext hq₂ h02] at hchunk
      simp at hchunk
    · rw [quality_chunk_eval hext hq₁ h01,
        quality_chunk_eval hext hq₂ h02] at hchunk
      simp only [List.cons.injEq, and_true] at hchunk
      exact hne (strNat_inj (str_append_cancel_left hchunk))

theorem path_bg_tup_sensitive {r : ImageRecord} {s₁ s₂ : RenditionSpec}
    {o₁ o₂ : ℚ} {z : ℤ × ℤ} {b : Option (ℤ × ℤ × ℤ × ℤ)} {l₁ l₂ : List ℕ}
    (h₁ : get_rendition_size r s₁ o₁ = .ok (z, b))
    (h₂ : get_rendition_size r s₂ o₂ = .ok (z, b))
    (hf : s₁.format = s₂.format) (hq : s₁.quality = s₂.quality)
    (hfl : flatten_flag s₁ = true)
    (hb₁ : s₁.background = some (.tup l₁)) (hb₂ : s₂.background = some (.tup l₂))
    (hne : l₁ ≠ l₂) :
    rendition_path r s₁ o₁ ≠ rendition_path r s₂ o₂ := by
  intro hp
  have hrest := jt_rest_of_equal_paths h₁ h₂ hf hp
  rw [← ext_of_congr hf, ← quality_chunk_congr hq] at hrest
  have hchunk := jt_chunk_inj (bg_chunk_len s₁) (bg_chunk_len s₂)
    (jt4_cancel_3 hrest)
  rw [bg_chunk_eval hfl hb₁,
    bg_chunk_eval (flatten_flag_congr hf ▸ hfl) hb₂] at hchunk
  simp only [List.cons.injEq, and_true] at hchunk
  exact hne (bg_tup_token_inj (str_append_cancel_left hchunk))

theorem path_bg_scalar_sensitive {r : ImageRecord} {s₁ s₂ : RenditionSpec}
    {o₁ o₂ : ℚ} {z : ℤ × ℤ} {b : Option (ℤ × ℤ × ℤ × ℤ)} {v₁ v₂ : String}
    (h₁ : get_rendition_size r s₁ o₁ = .ok (z, b))
    (h₂ : get_rendition_size r s₂ o₂ = .ok (z, b))
    (hf : s₁.format = s₂.format) (hq : s₁.quality = s₂.quality)
    (hfl : flatten_flag s₁ = true)
    (hb₁ : s₁.background = some (.scalar v₁)) (hb₂ : s₂.background = some (.scalar v₂))
    (hne : v₁ ≠ v₂) :
    rendition_path r s₁ o₁ ≠ rendition_path r s₂ o₂ := by
  intro hp
  have hrest := jt_rest_of_equal_paths h₁ h₂ hf hp
  rw [← ext_of_congr hf, ← quality_chunk_congr hq] at hrest
  have hchunk := jt_chunk_inj (bg_chunk_len s₁) (bg_chunk_len s₂)
    (jt4_cancel_3 hrest)
  rw [bg_chunk_eval hfl hb₁,
    bg_chunk_eval (flatten_flag_congr hf ▸ hfl) hb₂] at hchunk
  simp only [List.cons.injEq, and_true] at hchunk
  exact hne (str_append_cancel_left hchunk)

theorem path_format_sensitive {r : ImageRecord} {s₁ s₂ : RenditionSpec}
    {o₁ o₂ : ℚ} {z : ℤ × ℤ} {b : Option (ℤ × ℤ × ℤ × ℤ)} {f₁ f₂ : String}
    (h₁ : get_rendition_size r s₁ o₁ = .ok (z, b))
    (h₂ : get_rendition_size r s₂ o₂ = .ok (z, b))
    (hf₁ : s₁.format = some f₁) (hf₂ : s₂.format = some f₂)
    (hne₁ : f₁ ≠ "") (hne₂ : f₂ ≠ "") (hne : f₁ ≠ f₂)
    (hbg : s₁.background = s₂.background) (hq : s₁.quality = s₂.quality) :
    rendition_path r s₁ o₁ ≠ rendition_path r s₂ o₂ := by
  refine paths_differ_of_basename h₁ h₂ ?_
  intro habs
  rw [basename_decomp, basename_decomp] at habs
  have hT := str_append_cancel_left habs
  have he₁ : ext_of r s₁ = "." ++ f₁ := by
    unfold ext_of
    rw [hf₁]
    simp [hne₁]
  have he₂ : ext_of r s₂ = "." ++ f₂ := by
    unfold ext_of
    rw [hf₂]
    simp [hne₂]
  rw [he₁, he₂] at hT
  have hbgs : ∃ bt, (bg_chunk s₁ = [] ∨ bg_chunk s₁ = ["b" ++ bt]) ∧
      (bg_chunk s₂ = [] ∨ bg_chunk s₂ = ["b" ++ bt]) := by
    cases hB : s₁.background with
    | none =>
      exact ⟨"", Or.inl (bg_chunk_of_none hB),
        Or.inl (bg_chunk_of_none (by rw [← hbg]; exact hB))⟩
    | some c =>
      exact ⟨bg_encode c, bg_chunk_cases hB,
        bg_chunk_cases (by rw [← hbg]; exact hB)⟩
  have hqs : ∃ qt, (quality_chunk s₁ ("." ++ f₁) = [] ∨
        quality_chunk s₁ ("." ++ f₁) = ["q" ++ qt]) ∧
      (quality_chunk s₂ ("." ++ f₂) = [] ∨
        quality_chunk s₂ ("." ++ f₂) = ["q" ++ qt]) := by
    cases hQ : s₁.quality with
    | none =>
      exact ⟨"", Or.inl (quality_chunk_of_none hQ),
        Or.inl (quality_chunk_of_none (by rw [← hq]; exact hQ))⟩
    | some q =>
      exact ⟨strNat q, quality_chunk_cases hQ,
        quality_chunk_cases (by rw [← hq]; exact hQ)⟩
  obtain ⟨bt, hx, hy⟩ := hbgs
  obtain ⟨qt, hu, hv⟩ := hqs
  exact hne (tail_disamb hx hy hu hv hT)

/-! ## Claim theorems -/

/-- C1: the code evaluated at the failing input.  With `max_height = 100` on a
200×200 base, every mode returns height 200: the clamp at image.py lines
172-175 / 222-224 / 282-284 re-reads `spec.get('height')` instead of
`spec.get('max_height')`, so `max_height` is never applied.  The symmetric
`max_width = 100` clamp does work (last conjunct), as the claim describes. -/
theorem claim_C1_max_height_never_applied :
    get_rendition_fit_size ⟨200, 200, "", ""⟩ { max_height := some 100 } 1
      = ((200, 200), none) ∧
    get_rendition_stretch_size ⟨200, 200, "", ""⟩ { max_height := some 100 } 1
      = ((200, 200), none) ∧
    (get_rendition_fill_size ⟨200, 200, "", ""⟩ { max_height := some 100 } 1).1
      = (200, 200) ∧
    get_rendition_fit_size ⟨200, 200, "", ""⟩ { max_width := some 100 } 1
      = ((100, 100), none) := by
  refine ⟨?_, ?_, ?_, ?_⟩ <;>
    norm_num [get_rendition_fit_size, get_rendition_stretch_size,
      get_rendition_fill_size, fill_final, fill_box_x, fill_box_y, fill_box_w,
      fill_box_h, fill_clamp_base_w, fill_clamp_base_h, fit_size_pass,
      indep_size_pass, scale_pass, fit_min_width, fit_min_height,
      fit_clamp_width, fit_clamp_height, indep_min_width, indep_min_height,
      indep_clamp_width, indep_clamp_height, round, pyint, Option.getD]

/-- C2, counterexample: two stretch-mode requests over the same source whose
resolved sizes differ — (2000, 1500) at output scale 1 versus the upsampled
(4000, 3000) at output scale 2, which resizes to different pixel dimensions
and therefore different output bytes — receive the identical relative path,
because the size token is omitted whenever the resolved size is not strictly
smaller than the base (image.py line 73). -/
theorem claim_C2_counterexample :
    get_rendition_size ⟨2000, 1500, "0123456789abcdef0123456789abcdef", "photo.jpg"⟩
        { resize := some "stretch" } 1 = .ok ((2000, 1500), none) ∧
    get_rendition_size ⟨2000, 1500, "0123456789abcdef0123456789abcdef", "photo.jpg"⟩
        { resize := some "stretch" } 2 = .ok ((4000, 3000), none) ∧
    rendition_path ⟨2000, 1500, "0123456789abcdef0123456789abcdef", "photo.jpg"⟩
        { resize := some "stretch" } 1
      = rendition_path ⟨2000, 1500, "0123456789abcdef0123456789abcdef", "photo.jpg"⟩
        { resize := some "stretch" } 2 := by
  have hA : get_rendition_size
      ⟨2000, 1500, "0123456789abcdef0123456789abcdef", "photo.jpg"⟩
      { resize := some "stretch" } 1 = .ok ((2000, 1500), none) := by
    norm_num [get_rendition_size, get_rendition_stretch_size, indep_size_pass,
      scale_pass, indep_min_width, indep_min_height, indep_clamp_width,
      indep_clamp_height, round, pyint, Option.getD]
    rw [if_neg (by decide), if_neg (by decide)]
  have hB : get_rendition_size
      ⟨2000, 1500, "0123456789abcdef0123456789abcdef", "photo.jpg"⟩
      { resize := some "stretch" } 2 = .ok ((4000, 3000), none) := by
    norm_num [get_rendition_size, get_rendition_stretch_size, indep_size_pass,
      scale_pass, indep_min_width, indep_min_height, indep_clamp_width,
      indep_clamp_height, round, pyint, Option.getD]
    rw [if_neg (by decide), if_neg (by decide)]
  exact ⟨hA, hB, path_size_insensitive hA hB rfl rfl rfl (by decide) (by decide)⟩

/-- C2 (amended): the path builder is deterministic, and — over the same
source, all other parameters equal — sensitive to every byte-affecting
parameter with the provisos the code forces: resolved-size sensitivity
requires one of the two sizes to be strictly smaller than the base in some
dimension (sizes at or above base in both dimensions all omit the size token
and share one path — third conjunct); crop-box sensitivity covers boxes with
nonnegative coordinates; quality sensitivity covers any two supplied distinct
qualities on a jpeg extension (a supplied quality of 0 shares the token-free
name with an absent quality, so only supplied-versus-supplied differences are
covered); background sensitivity covers two supplied colours of the same kind
under a flattening format; format sensitivity covers any two distinct truthy
requested formats, whatever background or quality both requests carry. -/
theorem claim_C2_path_identity :
    (∀ (r : ImageRecord) (s₁ s₂ : RenditionSpec) (o₁ o₂ : ℚ),
      s₁ = s₂ → o₁ = o₂ → rendition_path r s₁ o₁ = rendition_path r s₂ o₂) ∧
    (∀ (r : ImageRecord) (s₁ s₂ : RenditionSpec) (o₁ o₂ : ℚ) (z₁ z₂ : ℤ × ℤ)
        (b : Option (ℤ × ℤ × ℤ × ℤ)),
      get_rendition_size r s₁ o₁ = .ok (z₁, b) →
      get_rendition_size r s₂ o₂ = .ok (z₂, b) →
      s₁.format = s₂.format → s₁.background = s₂.background →
      s₁.quality = s₂.quality → z₁ ≠ z₂ →
      (z₁.1 < r.width ∨ z₁.2 < r.height) →
      rendition_path r s₁ o₁ ≠ rendition_path r s₂ o₂) ∧
    (∀ (r : ImageRecord) (s₁ s₂ : RenditionSpec) (o₁ o₂ : ℚ) (z₁ z₂ : ℤ × ℤ)
        (b : Option (ℤ × ℤ × ℤ × ℤ)),
      get_rendition_size r s₁ o₁ = .ok (z₁, b) →
      get_rendition_size r s₂ o₂ = .ok (z₂, b) →
      s₁.format = s₂.format → s₁.background = s₂.background →
      s₁.quality = s₂.quality →
      ¬(z₁.1 < r.width ∨ z₁.2 < r.height) →
      ¬(z₂.1 < r.width ∨ z₂.2 < r.height) →
      rendition_path r s₁ o₁ = rendition_path r s₂ o₂) ∧
    (∀ (r : ImageRecord) (s₁ s₂ : RenditionSpec) (o₁ o₂ : ℚ) (z : ℤ × ℤ)
        (b₁ b₂ : Option (ℤ × ℤ × ℤ × ℤ)),
      get_rendition_size r s₁ o₁ = .ok (z, b₁) →
      get_rendition_size r s₂ o₂ = .ok (z, b₂) →
      s₁.format = s₂.format → s₁.background = s₂.background →
      s₁.quality = s₂.quality → b₁ ≠ b₂ → boxNonneg b₁ → boxNonneg b₂ →
      rendition_path r s₁ o₁ ≠ rendition_path r s₂ o₂) ∧
    (∀ (r : ImageRecord) (s₁ s₂ : RenditionSpec) (o₁ o₂ : ℚ) (z : ℤ × ℤ)
        (b : Option (ℤ × ℤ × ℤ × ℤ)) (q₁ q₂ : ℕ),
      get_rendition_size r s₁ o₁ = .ok (z, b) →
      get_rendition_size r s₂ o₂ = .ok (z, b) →
      s₁.format = s₂.format → s₁.background = s₂.background →
      s₁.quality = some q₁ → s₂.quality = some q₂ →
      q₁ ≠ q₂ →
      (ext_of r s₁ = ".jpg" ∨ ext_of r s₁ = ".jpeg") →
      rendition_path r s₁ o₁ ≠ rendition_path r s₂ o₂) ∧
    (∀ (r : ImageRecord) (s₁ s₂ : RenditionSpec) (o₁ o₂ : ℚ) (z : ℤ × ℤ)
        (b : Option (ℤ × ℤ × ℤ × ℤ)) (l₁ l₂ : List ℕ),
      get_rendition_size r s₁ o₁ = .ok (z, b) →
      get_rendition_size r s₂ o₂ = .ok (z, b) →
      s₁.format = s₂.format → s₁.quality = s₂.quality →
      flatten_flag s₁ = true →
      s₁.background = some (.tup l₁) → s₂.background = some (.tup l₂) →
      l₁ ≠ l₂ →
      rendition_path r s₁ o₁ ≠ rendition_path r s₂ o₂) ∧
    (∀ (r : ImageRecord) (s₁ s₂ : RenditionSpec) (o₁ o₂ : ℚ) (z : ℤ × ℤ)
        (b : Option (ℤ × ℤ × ℤ × ℤ)) (v₁ v₂ : String),
      get_rendition_size r s₁ o₁ = .ok (z, b) →
      get_rendition_size r s₂ o₂ = .ok (z, b) →
      s₁.format = s₂.format → s₁.quality = s₂.quality →
      flatten_flag s₁ = true →
      s₁.background = some (.scalar v₁) → s₂.background = some (.scalar v₂) →
      v₁ ≠ v₂ →
      rendition_path r s₁ o₁ ≠ rendition_path r s₂ o₂) ∧
    (∀ (r : ImageRecord) (s₁ s₂ : RenditionSpec) (o₁ o₂ : ℚ) (z : ℤ × ℤ)
        (b : Option (ℤ × ℤ × ℤ × ℤ)) (f₁ f₂ : String),
      get_rendition_size r s₁ o₁ = .ok (z, b) →
      get_rendition_size r s₂ o₂ = .ok (z, b) →
      s₁.format = some f₁ → s₂.format = some f₂ →
      f₁ ≠ "" → f₂ ≠ "" → f₁ ≠ f₂ →
      s₁.background = s₂.background → s₁.quality = s₂.quality →
      rendition_path r s₁ o₁ ≠ rendition_path r s₂ o₂) :=
  ⟨fun _ _ _ _ _ h1 h2 => by rw [h1, h2],
   fun _ _ _ _ _ _ _ _ h₁ h₂ hf hbg hq hz hsm =>
     path_size_sensitive h₁ h₂ hf hbg hq hz hsm,
   fun _ _ _ _ _ _ _ _ h₁ h₂ hf hbg hq hsm1 hsm2 =>
     path_size_insensitive h₁ h₂ hf hbg hq hsm1 hsm2,
   fun _ _ _ _ _ _ _ _ h₁ h₂ hf hbg hq hbox hn₁ hn₂ =>
     path_box_sensitive h₁ h₂ hf hbg hq hbox hn₁ hn₂,
   fun _ _ _ _ _ _ _ _ _ h₁ h₂ hf hbg hq₁ hq₂ hne hext =>
     path_quality_sensitive h₁ h₂ hf hbg hq₁ hq₂ hne hext,
   fun _ _ _ _ _ _ _ _ _ h₁ h₂ hf hq hfl hb₁ hb₂ hne =>
     path_bg_tup_sensitive h₁ h₂ hf hq hfl hb₁ hb₂ hne,
   fun _ _ _ _ _ _ _ _ _ h₁ h₂ hf hq hfl hb₁ hb₂ hne =>
     path_bg_scalar_sensitive h₁ h₂ hf hq hfl hb₁ hb₂ hne,
   fun _ _ _ _ _ _ _ _ _ h₁ h₂ hf₁ hf₂ hne₁ hne₂ hne hbg hq =>
     path_format_sensitive h₁ h₂ hf₁ hf₂ hne₁ hne₂ hne hbg hq⟩

theorem claim_C2_witness :
    rendition_path ⟨2000, 1500, "0123456789abcdef0123456789abcdef", "photo.jpg"⟩
        { width := some 1000 } 1
      ≠ rendition_path ⟨2000, 1500, "0123456789abcdef0123456789abcdef", "photo.jpg"⟩
        {} 1 :=
  claim_C2_path_identity.2.1
    ⟨2000, 1500, "0123456789abcdef0123456789abcdef", "photo.jpg"⟩
    { width := some 1000 } {} 1 1 (1000, 750) (2000, 1500) none
    (by norm_num [get_rendition_size, get_rendition_fit_size, fit_size_pass,
      scale_pass, fit_min_width, fit_min_height, fit_clamp_width,
      fit_clamp_height, round, pyint, Option.getD])
    (by norm_num [get_rendition_size, get_rendition_fit_size, fit_size_pass,
      scale_pass, fit_min_width, fit_min_height, fit_clamp_width,
      fit_clamp_height, round, pyint, Option.getD])
    rfl rfl rfl (by decide) (by decide)

/-- C3, counterexample: a well-formed constraint set (scale 1000, then
scale_min_height 100 on a 100×100 base) drives the working width to 0.1, the
box width rounds to 0, and the crop box degenerates to `x0 = x1 = 50`,
refuting the strict inequality `x0 < x1`. -/
theorem claim_C3_counterexample :
    SpecWF { scale := some 1000, scale_min_height := some 100 } ∧
    (get_rendition_fill_size ⟨100, 100, "", ""⟩
        { scale := some 1000, scale_min_height := some 100 } 1).2
      = some (50, 0, 50, 100) := by
  constructor
  · norm_num [SpecWF, optPos, optUnit]
  · norm_num [get_rendition_fill_size, fill_final, fill_box_x, fill_box_y,
      fill_box_w, fill_box_h, fill_clamp_base_w, fill_clamp_base_h,
      indep_size_pass, scale_pass, indep_min_width, indep_min_height,
      indep_clamp_width, indep_clamp_height, round, pyint, Option.getD]

/-- C3 (amended): for every positive base and well-formed constraint set
(supplied numeric constraints positive, fill-crop fractions in `[0,1]`), the
fill crop box satisfies `0 ≤ x0 ≤ x1 ≤ baseWidth` and
`0 ≤ y0 ≤ y1 ≤ baseHeight`.  The claim's strict `x0 < x1` fails (see the
counterexample): when a resolved dimension rounds to zero the box degenerates
to an empty slice. -/
theorem claim_C3_fill_box_bounds (r : ImageRecord) (spec : RenditionSpec) (os : ℚ)
    (h1 : 1 ≤ r.width) (h2 : 1 ≤ r.height) (hwf : SpecWF spec) (hos : 0 < os)
    (x0 y0 x1 y1 : ℤ)
    (hbox : (get_rendition_fill_size r spec os).2 = some (x0, y0, x1, y1)) :
    (0 ≤ x0 ∧ x0 ≤ x1 ∧ x1 ≤ r.width) ∧ (0 ≤ y0 ∧ y0 ≤ y1 ∧ y1 ≤ r.height) := by
  have hb : (get_rendition_fill_size r spec os).2
      = some (fill_box_x r spec os, fill_box_y r spec os,
          fill_box_x r spec os + fill_box_w r spec os,
          fill_box_y r spec os + fill_box_h r spec os) := rfl
  rw [hb, Option.some_inj] at hbox
  simp only [Prod.mk.injEq] at hbox
  obtain ⟨hx0, hy0, hx1, hy1⟩ := hbox
  subst hx0
  subst hy0
  subst hx1
  subst hy1
  have hbw := fill_box_w_bounds h1 h2 hwf hos
  have hbh := fill_box_h_bounds h1 h2 hwf hos
  have hfx := optUnit_getD_half hwf.2.2.2.2.2.2.2.1
  have hfy := optUnit_getD_half hwf.2.2.2.2.2.2.2.2
  have hx := round_offset_bounds (d := r.width - fill_box_w r spec os)
    (by omega) hfx.1 hfx.2
  have hy := round_offset_bounds (d := r.height - fill_box_h r spec os)
    (by omega) hfy.1 hfy.2
  have hxdef : fill_box_x r spec os
      = round (((r.width - fill_box_w r spec os : ℤ) : ℚ) *
          spec.fill_crop_x.getD (1/2)) := rfl
  have hydef : fill_box_y r spec os
      = round (((r.height - fill_box_h r spec os : ℤ) : ℚ) *
          spec.fill_crop_y.getD (1/2)) := rfl
  rw [← hxdef] at hx
  rw [← hydef] at hy
  omega

theorem claim_C3_witness :
    ((0 : ℤ) ≤ 500 ∧ (500 : ℤ) ≤ 3500 ∧ (3500 : ℤ) ≤ 4000) ∧
    ((0 : ℤ) ≤ 0 ∧ (0 : ℤ) ≤ 3000 ∧ (3000 : ℤ) ≤ 3000) :=
  claim_C3_fill_box_bounds ⟨4000, 3000, "", ""⟩
    { width := some 800, height := some 800,
      fill_crop_x := some (1/2), fill_crop_y := some (1/2) } 1
    (by decide) (by decide) (by norm_num [SpecWF, optPos, optUnit]) (by norm_num)
    500 0 3500 3000
    (by norm_num [get_rendition_fill_size, fill_final, fill_box_x, fill_box_y,
      fill_box_w, fill_box_h, fill_clamp_base_w, fill_clamp_base_h,
      indep_size_pass, scale_pass, indep_min_width, indep_min_height,
      indep_clamp_width, indep_clamp_height, round, pyint, Option.getD])

/-- C4: for every positive base, well-formed constraint set and positive
output scale, fit mode returns a size bounded by the base in both dimensions
and no crop box (image.py lines 180-184). -/
theorem claim_C4_fit_bounded (r : ImageRecord) (spec : RenditionSpec) (os : ℚ)
    (h1 : 1 ≤ r.width) (h2 : 1 ≤ r.height) (hwf : SpecWF spec) (hos : 0 < os) :
    (get_rendition_fit_size r spec os).1.1 ≤ r.width ∧
    (get_rendition_fit_size r spec os).1.2 ≤ r.height ∧
    (get_rendition_fit_size r spec os).2 = none :=
  ⟨min_le_right _ _, min_le_right _ _, rfl⟩

theorem claim_C4_witness :
    (get_rendition_fit_size ⟨2000, 2000, "", ""⟩ {} 2).1.1 ≤ 2000 ∧
    (get_rendition_fit_size ⟨2000, 2000, "", ""⟩ {} 2).1.2 ≤ 2000 ∧
    (get_rendition_fit_size ⟨2000, 2000, "", ""⟩ {} 2).2 = none :=
  claim_C4_fit_bounded ⟨2000, 2000, "", ""⟩ {} 2 (by decide) (by decide)
    (by decide) (by norm_num)

/-- C5, counterexample: the resolver performs no base-dimension validation.
With base width 0 (and no constraints) it returns the geometry `((0, 100),
none)` instead of failing with `InvalidConstraint`. -/
theorem claim_C5_counterexample :
    get_rendition_size ⟨0, 100, "", ""⟩ {} 1 = .ok ((0, 100), none) := by
  norm_num [get_rendition_size, get_rendition_fit_size, fit_size_pass,
    scale_pass, fit_min_width, fit_min_height, fit_clamp_width,
    fit_clamp_height, round, pyint, Option.getD]

/-- C5 (amended): geometry resolution never fails fast on a non-positive base
dimension: with an empty constraint set it returns a (degenerate)
`ResolvedGeometry`. -/
theorem claim_C5_no_base_validation (iw ih : ℤ) (c f : String) (os : ℚ)
    (h : iw ≤ 0 ∨ ih ≤ 0) :
    ∃ g, get_rendition_size ⟨iw, ih, c, f⟩ {} os = .ok g :=
  ⟨_, rfl⟩

theorem claim_C5_witness :
    ∃ g, get_rendition_size ⟨0, 100, "", ""⟩ {} 1 = .ok g :=
  claim_C5_no_base_validation 0 100 "" "" 1 (Or.inl (by decide))

/-- C6: base 4000×3000, fill, width 800, height 800, centred crop: resolved
(800, 800) with crop box (500, 0, 3500, 3000). -/
theorem claim_C6_concrete_fill :
    get_rendition_fill_size ⟨4000, 3000, "", ""⟩
        { width := some 800, height := some 800,
          fill_crop_x := some (1/2), fill_crop_y := some (1/2) } 1
      = ((800, 800), some (500, 0, 3500, 3000)) := by
  norm_num [get_rendition_fill_size, fill_final, fill_box_x, fill_box_y,
    fill_box_w, fill_box_h, fill_clamp_base_w, fill_clamp_base_h,
    indep_size_pass, scale_pass, indep_min_width, indep_min_height,
    indep_clamp_width, indep_clamp_height, round, pyint, Option.getD]

/-- C7, counterexample: source `photo.jpg`, no format requested, background
supplied.  The effective output format (the source's `.jpg` extension) does
not support transparency and a background colour was supplied, so the claim
predicts a background token; the code emits none, because `flatten` is only
ever set when a format is explicitly requested (image.py lines 62-65). -/
theorem claim_C7_counterexample :
    ext_of ⟨2000, 1500, "0123456789abcdef0123456789abcdef", "photo.jpg"⟩
        { background := some (.scalar "white") } = ".jpg" ∧
    (".jpg" : String) ∉ ([".png", ".gif"] : List String) ∧
    ({ background := some (.scalar "white") } : RenditionSpec).format = none ∧
    ({ background := some (.scalar "white") } : RenditionSpec).background.isSome
      = true ∧
    bg_chunk { background := some (.scalar "white") } = [] :=
  ⟨by decide, by decide, rfl, rfl, rfl⟩

/-- C7 (amended): the background token appears in the filename exactly when a
format was explicitly requested (and truthy), that format's extension is not
`.png`/`.gif`, and a background colour was supplied; when present, a tuple
colour is encoded as its components joined by `-` and any other colour as its
scalar value, prefixed by `b`. -/
theorem claim_C7_background_token (spec : RenditionSpec) :
    (bg_chunk spec ≠ [] ↔
      (∃ f, spec.format = some f ∧ f ≠ "" ∧
        ¬("." ++ f = ".png" ∨ "." ++ f = ".gif") ∧ spec.background.isSome = true)) ∧
    (∀ l, spec.background = some (.tup l) → flatten_flag spec = true →
      bg_chunk spec = ["b" ++ pyjoin "-" (l.map strNat)]) ∧
    (∀ v, spec.background = some (.scalar v) → flatten_flag spec = true →
      bg_chunk spec = ["b" ++ v]) := by
  refine ⟨⟨?_, ?_⟩, fun l hb hfl => bg_chunk_eval hfl hb,
    fun v hb hfl => bg_chunk_eval hfl hb⟩
  · intro h
    unfold bg_chunk at h
    by_cases hfl : flatten_flag spec = true
    · rw [if_pos hfl] at h
      cases hbgc : spec.background with
      | none =>
        rw [hbgc] at h
        simp at h
      | some c =>
        unfold flatten_flag at hfl
        cases hfo : spec.format with
        | none =>
          rw [hfo] at hfl
          simp at hfl
        | some f =>
          rw [hfo] at hfl
          have hfl2 : (if f ≠ "" then
              !decide ("." ++ f = ".png" ∨ "." ++ f = ".gif") else false) = true := hfl
          by_cases hfe : f = ""
          · simp [hfe] at hfl2
          · rw [if_pos hfe] at hfl2
            refine ⟨f, rfl, hfe, ?_, rfl⟩
            simpa using hfl2
    · rw [if_neg hfl] at h
      exact absurd rfl h
  · rintro ⟨f, hf, hne, hpng, hbg⟩
    obtain ⟨c, hc⟩ := Option.isSome_iff_exists.mp hbg
    have hfl : flatten_flag spec = true := by
      unfold flatten_flag
      rw [hf]
      simp [hne, hpng]
    rw [bg_chunk_eval hfl hc]
    simp

theorem claim_C7_witness :
    bg_chunk { format := some "jpg", background := some (.tup [255, 0, 0]) }
      = ["b" ++ pyjoin "-" ([255, 0, 0].map strNat)] :=
  (claim_C7_background_token _).2.1 [255, 0, 0] rfl (by decide)

/-- C8: the rounding helper computes `⌊x + 1/2⌋` on nonnegative inputs (halves
round up: `round (n + 1/2) = n + 1`), and every mode's resolver applies
`round` only to the final width, height and crop-box values: fit and stretch
round the real-valued pipeline outputs once (the pipeline passes
`fit_size_pass`/`indep_size_pass` are rational-valued with no rounding); fill
rounds the real-valued `fill_final` pair once for the resolved size, and each
crop-box value (`box_w`, `box_h`, `box_x`, `box_y`, image.py lines 240-245) is
a single `round` of a real-valued expression — the offsets being computed, as
in the source, from the already-final integer box dimensions. -/
theorem claim_C8_rounding :
    (∀ x : ℚ, 0 ≤ x → round x = ⌊x + 1/2⌋) ∧
    (∀ n : ℤ, round ((n : ℚ) + 1/2) = n + 1) ∧
    (∀ r spec os, get_rendition_fit_size r spec os =
      ((min (round (fit_size_pass spec ((r.width : ℚ), (r.height : ℚ)) os).1) r.width,
        min (round (fit_size_pass spec ((r.width : ℚ), (r.height : ℚ)) os).2) r.height),
        none)) ∧
    (∀ r spec os, get_rendition_stretch_size r spec os =
      ((round (indep_size_pass spec ((r.width : ℚ), (r.height : ℚ)) os).1,
        round (indep_size_pass spec ((r.width : ℚ), (r.height : ℚ)) os).2), none)) ∧
    (∀ r spec os, get_rendition_fill_size r spec os =
      ((round (fill_final r spec os).1, round (fill_final r spec os).2),
        some (fill_box_x r spec os, fill_box_y r spec os,
          fill_box_x r spec os + fill_box_w r spec os,
          fill_box_y r spec os + fill_box_h r spec os))) ∧
    (∀ r spec os, fill_box_w r spec os =
      min r.width (round ((fill_final r spec os).1 * (r.height : ℚ) /
        (fill_final r spec os).2))) ∧
    (∀ r spec os, fill_box_h r spec os =
      min r.height (round ((fill_final r spec os).2 * (r.width : ℚ) /
        (fill_final r spec os).1))) ∧
    (∀ r spec os, fill_box_x r spec os =
      round (((r.width - fill_box_w r spec os : ℤ) : ℚ) *
        (spec.fill_crop_x.getD (1/2)))) ∧
    (∀ r spec os, fill_box_y r spec os =
      round (((r.height - fill_box_h r spec os : ℤ) : ℚ) *
        (spec.fill_crop_y.getD (1/2)))) := by
  refine ⟨fun x hx => round_eq_floor hx, fun n => ?_, ?_, ?_, ?_, ?_, ?_, ?_, ?_⟩
  · have h : ((n : ℚ) + 1/2) + 1/2 = ((n + 1 : ℤ) : ℚ) := by push_cast; ring
    rw [round, h, pyint_intCast]
  all_goals intro r spec os
  all_goals rfl

theorem claim_C8_witness : round ((3 : ℚ)/2) = ⌊(3 : ℚ)/2 + 1/2⌋ :=
  claim_C8_rounding.1 (3/2) (by norm_num)

/-- C9: `get_rendition_size` raises `ValueError` exactly when the effective
resize mode (defaulting to `"fit"` when absent) is outside
`{fit, fill, stretch}`, and an absent mode dispatches to fit. -/
theorem claim_C9_mode_dispatch (r : ImageRecord) (spec : RenditionSpec) (os : ℚ) :
    ((∃ e, get_rendition_size r spec os = .error e) ↔
      spec.resize.getD "fit" ∉ (["fit", "fill", "stretch"] : List String)) ∧
    (spec.resize = none →
      get_rendition_size r spec os = .ok (get_rendition_fit_size r spec os)) := by
  constructor
  · unfold get_rendition_size
    by_cases h1 : spec.resize.getD "fit" = "fit"
    · simp [h1]
    · by_cases h2 : spec.resize.getD "fit" = "fill"
      · simp [h1, h2]
      · by_cases h3 : spec.resize.getD "fit" = "stretch"
        · simp [h1, h2, h3]
        · simp [h1, h2, h3]
  · intro h
    simp [get_rendition_size, h, Option.getD]

theorem claim_C9_witness :
    ((∃ e, get_rendition_size ⟨100, 100, "", ""⟩ { resize := some "tile" } 1 = .error e) ↔
      (some "tile" : Option String).getD "fit" ∉ (["fit", "fill", "stretch"] : List String)) ∧
    get_rendition_size ⟨100, 100, "", ""⟩ {} 1
      = .ok (get_rendition_fit_size ⟨100, 100, "", ""⟩ {} 1) :=
  ⟨(claim_C9_mode_dispatch ⟨100, 100, "", ""⟩ { resize := some "tile" } 1).1,
    (claim_C9_mode_dispatch ⟨100, 100, "", ""⟩ {} 1).2 rfl⟩

/-- C10: under a positive base and well-formed constraints, every divisor used
by the fill resolver is strictly positive: the (guarded) `scale` divisor at
lines 197-198, the working width at line 232, the working height after the
width clamp at line 236, and the final height and width dividing the crop-box
terms at lines 240-241. -/
theorem claim_C10_fill_divisors_positive (r : ImageRecord) (spec : RenditionSpec)
    (os : ℚ) (h1 : 1 ≤ r.width) (h2 : 1 ≤ r.height) (hwf : SpecWF spec)
    (hos : 0 < os) :
    (∀ s, spec.scale = some s → 0 < s) ∧
    0 < (indep_size_pass spec ((r.width : ℚ), (r.height : ℚ)) os).1 ∧
    0 < (fill_clamp_base_w (r.width : ℚ)
          (indep_size_pass spec ((r.width : ℚ), (r.height : ℚ)) os)).2 ∧
    0 < (fill_final r spec os).2 ∧
    0 < (fill_final r spec os).1 := by
  have hiw : (0 : ℚ) < (r.width : ℚ) := by exact_mod_cast lt_of_lt_of_le Int.zero_lt_one h1
  have hih : (0 : ℚ) < (r.height : ℚ) := by exact_mod_cast lt_of_lt_of_le Int.zero_lt_one h2
  have hW : 0 < (indep_size_pass spec ((r.width : ℚ), (r.height : ℚ)) os).1 ∧
      0 < (indep_size_pass spec ((r.width : ℚ), (r.height : ℚ)) os).2 :=
    indep_size_pass_pos hwf hos hiw hih
  have hW1 := fill_clamp_base_w_pos hiw hW.1 hW.2
  have hW2 := fill_clamp_base_h_pos hih hW1.1 hW1.2
  refine ⟨fun s hs => ?_, hW.1, hW1.2, hW2.2, hW2.1⟩
  have := hwf.1
  rw [hs] at this
  exact this

theorem claim_C10_witness :
    (∀ s, ({ scale := some 2 } : RenditionSpec).scale = some s → 0 < s) ∧
    0 < (indep_size_pass { scale := some 2 } (((100 : ℤ) : ℚ), ((100 : ℤ) : ℚ)) 1).1 ∧
    0 < (fill_clamp_base_w ((100 : ℤ) : ℚ)
          (indep_size_pass { scale := some 2 } (((100 : ℤ) : ℚ), ((100 : ℤ) : ℚ)) 1)).2 ∧
    0 < (fill_final ⟨100, 100, "", ""⟩ { scale := some 2 } 1).2 ∧
    0 < (fill_final ⟨100, 100, "", ""⟩ { scale := some 2 } 1).1 :=
  claim_C10_fill_divisors_positive ⟨100, 100, "", ""⟩ { scale := some 2 } 1
    (by decide) (by decide) (by norm_num [SpecWF, optPos, optUnit]) (by norm_num)

end Publ
